import Mathlib

/-!
Verification of the game-state simulation core of `yass` (`src/game.c`,
`src/game.h`), as a shallow embedding in Lean 4.

Numeric model: the C `float`/`double` arithmetic is modelled by an arbitrary
linear ordered field `K` with a floor function (instantiated with `ℚ` or `ℝ`
in concrete statements), i.e. exact field arithmetic instead of IEEE
rounding.  The irrational primitives that the code pulls from `<math.h>` and
the external `matlib` vector library (`sqrt` inside `vec_norm`/`vec_clamp`,
`atan2`, `M_PI`) are passed in as an explicit `RealOps` record, so the whole
model stays computable and can be evaluated on rational inputs.

The external collision engine (`physics.c`, declared in `physics.h`, not part
of the sources) is modelled from the spec, section 6: it owns a set of
registered bodies; a `step` delivers collision callbacks synchronously for
pairs of currently registered bodies; which pairs geometrically overlap in a
given step is abstracted into an `oracle` input.  Allocation success or
failure of `make(struct Projectile)` is likewise an explicit boolean input.
-/

namespace Yass

/-! ## Constants from `game.h` and the `game.c` body-type enum -/

def BODY_TYPE_PLAYER : Nat := 1
def BODY_TYPE_ENEMY : Nat := 2
def BODY_TYPE_ASTEROID : Nat := 4

def ACTION_MOVE_LEFT : Nat := 1
def ACTION_MOVE_RIGHT : Nat := 2
def ACTION_SHOOT : Nat := 4

def EVENT_PLAYER_HIT : Nat := 1
def EVENT_ENEMY_HIT : Nat := 2
def EVENT_ASTEROID_HIT : Nat := 3

def SCREEN_HEIGHT : Nat := 800

def SIMULATION_STEP (K : Type) [LinearOrderedField K] : K := 1 / 15
def ENEMY_COLLISION_DAMAGE (K : Type) [LinearOrderedField K] : K := 50
def ENEMY_INITIAL_HITPOINTS (K : Type) [LinearOrderedField K] : K := 30
def PLAYER_INITIAL_HITPOINTS (K : Type) [LinearOrderedField K] : K := 100
def PLAYER_INITIAL_SPEED (K : Type) [LinearOrderedField K] : K := 200
def PLAYER_ACTION_SHOOT_RATE (K : Type) [LinearOrderedField K] : K := 1
def PLAYER_PROJECTILE_INITIAL_SPEED (K : Type) [LinearOrderedField K] : K := 400
def PLAYER_PROJECTILE_TTL (K : Type) [LinearOrderedField K] : K := 5

/-- Bundle of the real-analytic primitives used by the code: `sqrt` (used by
matlib's magnitude-based vector routines), `atan2` and the constant `M_PI`.
Passing them explicitly keeps every definition computable over `ℚ`. -/
structure RealOps (K : Type) where
  sqrt : K → K
  arctan2 : K → K → K
  pi : K

/-! ## Entity records (`game.h` structs, fields as used by `game.c`)

Each entity embeds a `struct Body`; only the body's `x`/`y` are ever written
after construction, so the embedded body is modelled by the two mirror fields
`bodyx`/`bodyy` (radius, type, mask and the `userdata` back-pointer are fixed
at registration and are represented by the `BodyRef` identity below). -/

structure Player (K : Type) where
  hitpoints : K
  x : K
  y : K
  actions : Nat
  speed : K
  shoot_cooldown : K
  bodyx : K
  bodyy : K
deriving DecidableEq

structure Enemy (K : Type) where
  x : K
  y : K
  xvel : K
  yvel : K
  rot : K
  hitpoints : K
  speed : K
  id : Nat
  bodyx : K
  bodyy : K
deriving DecidableEq

structure Asteroid (K : Type) where
  id : Nat
  x : K
  y : K
  xvel : K
  yvel : K
  rot : K
  rot_speed : K
deriving DecidableEq

structure Projectile (K : Type) where
  id : Nat
  x : K
  y : K
  xvel : K
  yvel : K
  ttl : K
deriving DecidableEq

/-- Game event (`struct Event` as used by `game.c`: a type tag and the
entity handle carried in `entity_hnd`). -/
structure Event where
  type : Nat
  entity_hnd : Nat
deriving DecidableEq

/-- Identity of a body registered with the collision engine.  In C a body is
identified by its address (`&world->player.body`, `&world->enemies[i].body`,
`&ast->body`); here by the owning entity. -/
inductive BodyRef
  | player
  | enemy (idx : Nat)
  | asteroid (id : Nat)
deriving DecidableEq

/-- The view of a `struct Body *` that `handle_player_collision` actually
reads: the `type` field, and the `id` of the entity behind `userdata`. -/
structure SimBody where
  type : Nat
  id : Nat
deriving DecidableEq

/-- World container (`struct World` plus the engine-side state the model
needs).  `enemies` is the fixed array together with `enemy_count`
(`enemy_count = enemies.length`); `sim_bodies` is the collision engine's set
of registered bodies; `handler_masks` the masks of the registered collision
handlers (the callback is always `handle_player_collision`); `sim_acc` is
the `static float sim_acc` accumulator of `world_update` (a process-wide
static in C, initialized to zero at program start; carried in the state
here). -/
structure World (K : Type) where
  player : Player K
  asteroid_list : List (Asteroid K)
  projectile_list : List (Projectile K)
  enemies : List (Enemy K)
  sim_bodies : List BodyRef
  handler_masks : List Nat
  event_queue : List Event
  sim_acc : K
deriving DecidableEq

/-! ## matlib vector routines

Modelled from the spec: the `matlib` library (`Vec`, `vec_sub`, `vec_add`,
`vec_mulf`, `vec_norm`, `vec_clamp`) is not among the sources; the spec
describes `vec_norm` as normalization to unit length and `vec_clamp` as
clamping the vector's magnitude to a maximum (sections 4.4, glossary).  The
magnitude test inside `vec_clamp` is expressed on squared magnitudes, which
over the reals is the same test and avoids a square root in the condition. -/

structure Vec (K : Type) where
  x : K
  y : K
  z : K
  w : K

section VecOps

variable {K : Type} [LinearOrderedField K]

def vec (x y z w : K) : Vec K := ⟨x, y, z, w⟩

def vec_sub (a b : Vec K) : Vec K := ⟨a.x - b.x, a.y - b.y, a.z - b.z, a.w - b.w⟩

def vec_add (a b : Vec K) : Vec K := ⟨a.x + b.x, a.y + b.y, a.z + b.z, a.w + b.w⟩

def vec_mulf (a : Vec K) (s : K) : Vec K := ⟨a.x * s, a.y * s, a.z * s, a.w * s⟩

/-- Squared magnitude of a vector. -/
def vec_mag2 (a : Vec K) : K := a.x * a.x + a.y * a.y + a.z * a.z + a.w * a.w

/-- Magnitude of a vector (via the supplied square root). -/
def vec_mag (ops : RealOps K) (a : Vec K) : K := ops.sqrt (vec_mag2 a)

/-- Modelled from the spec: matlib's `vec_norm`, normalization to unit
length (scale by the reciprocal of the magnitude). -/
def vec_norm (ops : RealOps K) (a : Vec K) : Vec K :=
  vec_mulf a (1 / vec_mag ops a)

/-- Modelled from the spec: matlib's `vec_clamp`, clamp the magnitude of a
vector to `m` (rescale to magnitude `m` whenever it exceeds `m`). -/
def vec_clamp (ops : RealOps K) (a : Vec K) (m : K) : Vec K :=
  if vec_mag2 a ≤ m * m then a else vec_mulf a (m / vec_mag ops a)

end VecOps

section Model

variable {K : Type} [LinearOrderedField K]

/-! ## Event queue and collision bridge (`game.c` lines 16-62) -/

/-- `add_event` (game.c:16): append the event at the end of the queue.  The
amortized array growth and the fatal `exit` on `realloc` failure concern only
the backing storage and are not observable at this level. -/
def add_event (w : World K) (evt : Event) : World K :=
  { w with event_queue := w.event_queue ++ [evt] }

/-- `handle_player_collision` (game.c:38): a zero-initialized event is
filled in depending on the types of the two bodies and enqueued if its type
was set; the handler always returns the continuation flag 1. -/
def handle_player_collision (a b : SimBody) (w : World K) : World K × Int :=
  if a.type ≠ BODY_TYPE_PLAYER then (w, 1)
  else
    let evt : Event :=
      if b.type = BODY_TYPE_ENEMY then ⟨EVENT_ENEMY_HIT, b.id⟩
      else if b.type = BODY_TYPE_ASTEROID then ⟨EVENT_ASTEROID_HIT, b.id⟩
      else ⟨0, 0⟩
    if evt.type ≠ 0 then (add_event w evt, 1) else (w, 1)

/-- The `struct Body *` view the handler receives for a registered body: its
type bit, and the `id` field of the entity behind `userdata` (for an enemy
body, `((struct Enemy *)b->userdata)->id`, read from the current slot). -/
def sim_body_view (w : World K) : BodyRef → SimBody
  | .player => ⟨BODY_TYPE_PLAYER, 0⟩
  | .enemy i => ⟨BODY_TYPE_ENEMY, ((w.enemies.get? i).map Enemy.id).getD 0⟩
  | .asteroid i => ⟨BODY_TYPE_ASTEROID, i⟩

/-- Modelled from the spec (section 6, `physics.c` not among the sources):
deliver one colliding pair to the registered handlers.  Each handler whose
mask matches the pair's combined type bits is invoked; a handler returning a
flag other than 1 stops the evaluation of the remaining handlers. -/
def deliver_handlers (w : World K) (a b : SimBody) : World K :=
  (w.handler_masks.foldl
    (fun acc m =>
      if acc.2 then acc
      else if a.type ||| b.type = m then
        let r := handle_player_collision a b acc.1
        (r.1, r.2 ≠ 1)
      else acc)
    (w, false)).1

/-- Modelled from the spec (section 6): one fixed-size step of the collision
engine.  Which pairs geometrically overlap is abstracted into the `pairs`
input; the engine invokes callbacks only for bodies currently registered
with it.  Returns the updated world and the list of pairs actually delivered
to callbacks. -/
def sim_step (w : World K) (pairs : List (BodyRef × BodyRef)) :
    World K × List (BodyRef × BodyRef) :=
  pairs.foldl
    (fun acc p =>
      if p.1 ∈ acc.1.sim_bodies ∧ p.2 ∈ acc.1.sim_bodies then
        (deliver_handlers acc.1 (sim_body_view acc.1 p.1) (sim_body_view acc.1 p.2),
         acc.2 ++ [p])
      else acc)
    (w, [])

end Model

section Loop

variable {K : Type} [LinearOrderedField K]

/-- Result of the fixed-timestep physics phase: the world after the steps,
the leftover accumulator, the number of `sim_step` invocations, and the
collision pairs delivered to callbacks. -/
structure PhysicsOut (K : Type) where
  world : World K
  acc : K
  steps : Nat
  callbacks : List (BodyRef × BodyRef)
deriving DecidableEq

/-- The `while (sim_acc >= SIMULATION_STEP)` loop of `world_update`
(game.c:210): as long as the accumulator holds at least one step, run one
fixed-size physics step and subtract the step size.  `n` indexes the steps
of the current call into the collision oracle. -/
def physics_loop [FloorRing K] (w : World K) (acc : K)
    (oracle : Nat → List (BodyRef × BodyRef)) (n : Nat) : PhysicsOut K :=
  if h : SIMULATION_STEP K ≤ acc then
    let s := sim_step w (oracle n)
    let r := physics_loop s.1 (acc - SIMULATION_STEP K) oracle (n + 1)
    ⟨r.world, r.acc, r.steps + 1, s.2 ++ r.callbacks⟩
  else ⟨w, acc, 0, []⟩
termination_by (⌊acc / SIMULATION_STEP K⌋).toNat
decreasing_by
  have hstep : (0 : K) < SIMULATION_STEP K := by norm_num [SIMULATION_STEP]
  have h1 : (acc - SIMULATION_STEP K) / SIMULATION_STEP K
      = acc / SIMULATION_STEP K - 1 := by
    field_simp
  have h2 : (1 : K) ≤ acc / SIMULATION_STEP K := (one_le_div hstep).2 h
  have h3 : (1 : ℤ) ≤ ⌊acc / SIMULATION_STEP K⌋ := by
    exact Int.le_floor.2 (by exact_mod_cast h2)
  have h4 : ⌊(acc - SIMULATION_STEP K) / SIMULATION_STEP K⌋
      = ⌊acc / SIMULATION_STEP K⌋ - 1 := by
    rw [h1]
    exact_mod_cast Int.floor_sub_int (acc / SIMULATION_STEP K) 1
  rw [h4]
  omega

end Loop

/-- Replace the element at index `i` by `f` of it (used for the in-place
write `world->enemies[evt->entity_hnd] ...`); out-of-range indices leave the
list unchanged. -/
def modify_at {α : Type} (i : Nat) (f : α → α) : List α → List α
  | [] => []
  | x :: xs =>
    match i with
    | 0 => f x :: xs
    | n + 1 => x :: modify_at n f xs

section Phases

variable {K : Type} [LinearOrderedField K]

/-! ## Event drain (`game.c` lines 215-233) -/

/-- One iteration of the event-processing loop (game.c:216): an `EnemyHit`
event subtracts the enemy-collision damage from the player's hitpoints,
zeroes the enemy's hitpoints and removes the enemy's body from the collision
engine; an `AsteroidHit` event only logs; other types have no case. -/
def process_event (w : World K) (evt : Event) : World K :=
  if evt.type = EVENT_ENEMY_HIT then
    { w with
      player.hitpoints := w.player.hitpoints - ENEMY_COLLISION_DAMAGE K,
      enemies := modify_at evt.entity_hnd (fun e => { e with hitpoints := 0 }) w.enemies,
      sim_bodies := w.sim_bodies.erase (BodyRef.enemy evt.entity_hnd) }
  else w

/-- The event-drain block of `world_update`: process the queued events in
FIFO order, then reset the live count to zero.  Returns the drained world
and the list of events that were processed. -/
def events_phase (w : World K) : World K × List Event :=
  ({ w.event_queue.foldl process_event w with event_queue := [] }, w.event_queue)

/-! ## Player movement and shooting (`game.c` lines 235-267) -/

/-- The player-movement block (game.c:236): move left or, failing that,
right by `dt * speed`, and sync the body's x position. -/
def player_move_phase (w : World K) (dt : K) : World K :=
  let distance := dt * w.player.speed
  let x' :=
    if w.player.actions &&& ACTION_MOVE_LEFT ≠ 0 then w.player.x - distance
    else if w.player.actions &&& ACTION_MOVE_RIGHT ≠ 0 then w.player.x + distance
    else w.player.x
  { w with player.x := x', player.bodyx := x' }

/-- The shooting block (game.c:247): the cooldown always decrements by `dt`;
when the shoot action is held and the cooldown has expired, the cooldown is
reset and a projectile is allocated (`alloc` tells whether `make` succeeds,
mirroring heap-allocation success).  On allocation failure the C code
returns 0 from `world_update` immediately; the `Bool` in the result is
`false` exactly on that path. -/
def shoot_phase (w : World K) (dt : K) (alloc : Bool) : World K × Bool :=
  let cd := w.player.shoot_cooldown - dt
  let w1 := { w with player.shoot_cooldown := cd }
  if w1.player.actions &&& ACTION_SHOOT ≠ 0 ∧ cd ≤ 0 then
    let w2 := { w1 with player.shoot_cooldown := 1 / PLAYER_ACTION_SHOOT_RATE K }
    if alloc then
      let prj : Projectile K :=
        { id := 0, x := w2.player.x, y := w2.player.y, xvel := 0,
          yvel := -(PLAYER_PROJECTILE_INITIAL_SPEED K), ttl := PLAYER_PROJECTILE_TTL K }
      ({ w2 with projectile_list := w2.projectile_list ++ [prj] }, true)
    else (w2, false)
  else (w1, true)

/-! ## Enemy steering (`game.c` lines 269-306) -/

/-- The per-enemy steering update (game.c:277-305): head towards the player
at the configured speed, with the per-step velocity change clamped to 0.5
and the resulting velocity clamped to the enemy's speed; the facing rotation
is set from the velocity heading and the position (and body position) is
integrated by the new velocity. -/
def enemy_steer (ops : RealOps K) (plr : Player K) (e : Enemy K) (dt : K) : Enemy K :=
  let target := vec plr.x plr.y 0 0
  let pos := vec e.x e.y 0 0
  let dir := vec_norm ops (vec_sub target pos)
  let vel := vec_mulf dir e.speed
  let curr_vel := vec e.xvel e.yvel 0 0
  let steer := vec_clamp ops (vec_sub vel curr_vel) (1 / 2)
  let vel2 := vec_clamp ops (vec_add curr_vel steer) e.speed
  let x' := e.x + vel2.x * dt
  let y' := e.y + vel2.y * dt
  { e with
    xvel := vel2.x, yvel := vel2.y,
    rot := ops.pi / 2 - ops.arctan2 vel2.y vel2.x,
    x := x', y := y', bodyx := x', bodyy := y' }

/-- The enemy-update block (game.c:270): every enemy with positive hitpoints
is steered towards the player; dead enemies are skipped. -/
def enemies_phase (ops : RealOps K) (w : World K) (dt : K) : World K :=
  { w with
    enemies := w.enemies.map fun e =>
      if e.hitpoints ≤ 0 then e else enemy_steer ops w.player e dt }

/-! ## Asteroid and projectile kinematics (`game.c` lines 308-331) -/

/-- The per-asteroid update (game.c:311-317): integrate position and
rotation unconditionally; subtract one full turn when the rotation reaches
`2π`. -/
def asteroid_update (ops : RealOps K) (ast : Asteroid K) (dt : K) : Asteroid K :=
  let r := ast.rot + ast.rot_speed * dt
  { ast with
    x := ast.x + ast.xvel * dt,
    y := ast.y + ast.yvel * dt,
    rot := if r ≥ ops.pi * 2 then r - ops.pi * 2 else r }

def asteroids_phase (ops : RealOps K) (w : World K) (dt : K) : World K :=
  { w with asteroid_list := w.asteroid_list.map fun a => asteroid_update ops a dt }

/-- The per-projectile update (game.c:324-329): integrate position and burn
time-to-live only while the time-to-live is positive. -/
def projectile_update (prj : Projectile K) (dt : K) : Projectile K :=
  if prj.ttl > 0 then
    { prj with
      x := prj.x + prj.xvel * dt,
      y := prj.y + prj.yvel * dt,
      ttl := prj.ttl - dt }
  else prj

def projectiles_phase (w : World K) (dt : K) : World K :=
  { w with projectile_list := w.projectile_list.map fun p => projectile_update p dt }

/-! ## `world_update` (`game.c` lines 202-334) -/

/-- Result of one `world_update` call, together with the observations used
by the statements: number of physics steps run, collision pairs delivered to
callbacks, events processed by the drain, and the C return value. -/
structure UpdateOut (K : Type) where
  world : World K
  steps : Nat
  callbacks : List (BodyRef × BodyRef)
  processed : List Event
  ret : Int

/-- `world_update` (game.c:202), in the exact order of the C function body:
physics steps from the accumulated time, event drain, player movement,
shooting (returning 0 and skipping the rest of the frame when the
projectile allocation fails), enemy steering, asteroid and projectile
integration. -/
def world_update [FloorRing K] (ops : RealOps K) (w : World K) (dt : K)
    (oracle : Nat → List (BodyRef × BodyRef)) (alloc : Bool) : UpdateOut K :=
  let p := physics_loop w (w.sim_acc + dt) oracle 0
  let w1 := { p.world with sim_acc := p.acc }
  let e := events_phase w1
  let w3 := player_move_phase e.1 dt
  let s := shoot_phase w3 dt alloc
  if s.2 = false then
    { world := s.1, steps := p.steps, callbacks := p.callbacks,
      processed := e.2, ret := 0 }
  else
    let w5 := enemies_phase ops s.1 dt
    let w6 := asteroids_phase ops w5 dt
    let w7 := projectiles_phase w6 dt
    { world := w7, steps := p.steps, callbacks := p.callbacks,
      processed := e.2, ret := 1 }

/-- Input of one frame: the elapsed time reported by the frame driver, the
collision oracle for the call's physics steps, and whether projectile
allocation succeeds. -/
structure FrameIn (K : Type) where
  dt : K
  oracle : Nat → List (BodyRef × BodyRef)
  alloc : Bool

/-- Run a sequence of `world_update` calls; besides the final world, collect
the total number of physics steps and all collision pairs delivered to
callbacks. -/
def run_updates [FloorRing K] (ops : RealOps K) (w : World K) :
    List (FrameIn K) → World K × Nat × List (BodyRef × BodyRef)
  | [] => (w, 0, [])
  | f :: fs =>
    let out := world_update ops w f.dt f.oracle f.alloc
    let r := run_updates ops out.world fs
    (r.1, out.steps + r.2.1, out.callbacks ++ r.2.2)

/-! ## Entity registration (`game.c` lines 163-200) -/

/-- `world_add_asteroid` (game.c:163): append the record to the asteroid
list (list-node allocation failure not modelled; the claims do not involve
it). -/
def world_add_asteroid (w : World K) (ast : Asteroid K) : World K :=
  { w with asteroid_list := w.asteroid_list ++ [ast] }

/-- `world_add_projectile` (game.c:196): append to the projectile list. -/
def world_add_projectile (w : World K) (prj : Projectile K) : World K :=
  { w with projectile_list := w.projectile_list ++ [prj] }

/-- `world_add_enemy` (game.c:169).  `M` stands for `MAX_ENEMIES`
(modelled from the spec: the macro's value is not in the available sources;
the spec calls it a compile-time fixed capacity, so it is a parameter here).
While there is room, the spec record is copied into the next free slot, its
hitpoints reset to the initial value, the slot index assigned as its id, and
its body registered with the engine (`reg_ok` tells whether `sim_add_body`
succeeds; on failure the slot is not rolled back and -1 is returned).  A
full array yields -1. -/
def world_add_enemy (M : Nat) (w : World K) (e : Enemy K) (reg_ok : Bool) :
    World K × Int :=
  if w.enemies.length < M then
    let i := w.enemies.length
    let e' := { e with
      hitpoints := ENEMY_INITIAL_HITPOINTS K, id := i, bodyx := e.x, bodyy := e.y }
    let w' := { w with enemies := w.enemies ++ [e'] }
    if reg_ok then
      ({ w' with sim_bodies := w'.sim_bodies ++ [BodyRef.enemy i] }, Int.ofNat i)
    else (w', -1)
  else (w, -1)

/-- Call `world_add_enemy` once per spec record in the list (with body
registration succeeding each time), collecting the return values in call
order. -/
def add_enemy_run (M : Nat) (w : World K) : List (Enemy K) → World K × List Int
  | [] => (w, [])
  | e :: rest =>
    let r := world_add_enemy M w e true
    let r2 := add_enemy_run M r.1 rest
    (r2.1, r.2 :: r2.2)

/-- The world as `world_new` (game.c:64) leaves it on success: zeroed record
(`make` zero-initializes), both entity lists empty, the two collision
handlers registered with masks Player|Enemy and Player|Asteroid, an empty
event queue, the player initialized and its body registered. -/
def world_new_state (K : Type) [LinearOrderedField K] : World K :=
  { player :=
      { hitpoints := PLAYER_INITIAL_HITPOINTS K,
        x := 0,
        y := (SCREEN_HEIGHT : K) / 2 - 50,
        actions := 0,
        speed := PLAYER_INITIAL_SPEED K,
        shoot_cooldown := 0,
        bodyx := 0,
        bodyy := (SCREEN_HEIGHT : K) / 2 - 50 },
    asteroid_list := [],
    projectile_list := [],
    enemies := [],
    sim_bodies := [BodyRef.player],
    handler_masks := [BODY_TYPE_PLAYER ||| BODY_TYPE_ENEMY,
                      BODY_TYPE_PLAYER ||| BODY_TYPE_ASTEROID],
    event_queue := [],
    sim_acc := 0 }

end Phases

/-! ## `world_new` / `world_destroy` construction and teardown
(`game.c` lines 64-161), with explicit allocation accounting

For the error-handling claims the heap resources acquired by `world_new` are
tracked by name: the `World` record itself, the two entity containers, the
collision engine, and the event-queue buffer.  Allocations internal to the
collision engine (handler registration) are owned and torn down by
`sim_destroy` and are not tracked separately. -/

/-- Heap resources acquired by `world_new`. -/
inductive Res
  | worldRec
  | astList
  | prjList
  | simEngine
  | eventQueue
deriving DecidableEq

/-- A possibly partially constructed `struct World *`: which of the four
owned sub-resources have been allocated (entity records do not exist yet at
construction time). -/
structure PWorld where
  asteroid_list : Bool
  projectile_list : Bool
  sim : Bool
  event_queue : Bool
deriving DecidableEq

/-- `world_destroy` (game.c:137), applied to a possibly `NULL`, possibly
partially constructed world; returns the list of resources it releases.
`free(event_queue)` and `sim_destroy(sim)` release those resources when
present; the entity-list loop walks the local array
`{asteroid_list, projectile_list, NULL}` and stops at the first `NULL`
entry, so the projectile list is freed only if the asteroid list is
present; finally the record itself is freed.  A `NULL` argument releases
nothing. -/
def world_destroy_model : Option PWorld → List Res
  | none => []
  | some pw =>
    (if pw.event_queue then [Res.eventQueue] else [])
      ++ (if pw.sim then [Res.simEngine] else [])
      ++ (if pw.asteroid_list then
            [Res.astList] ++ (if pw.projectile_list then [Res.prjList] else [])
          else [])
      ++ [Res.worldRec]

/-- Success or failure of each allocation / sub-system initialization step
of `world_new`, in program order. -/
structure NewFlags where
  world_ok : Bool
  ast_list_ok : Bool
  prj_list_ok : Bool
  sim_ok : Bool
  handler1_ok : Bool
  handler2_ok : Bool
  queue_ok : Bool
  player_body_ok : Bool
deriving DecidableEq

/-- Ghost accounting of one `world_new` run: every resource allocated during
the run, and every resource released before returning. -/
structure AllocLog where
  allocated : List Res
  freed : List Res
deriving DecidableEq

/-- `world_new` (game.c:64) with explicit allocation outcomes, mirroring the
C control flow: allocate the record; allocate both entity lists and, if
either failed, call `world_destroy(NULL)` — the literal argument of the C
call — and return `NULL`; create the collision engine, register the two
handlers, allocate the event queue and register the player's body, unwinding
through `world_destroy(w)` on each of those failures. -/
def world_new_model (fl : NewFlags) : Option PWorld × AllocLog :=
  if ¬ fl.world_ok then (none, ⟨[], []⟩)
  else
    let a1 := [Res.worldRec]
      ++ (if fl.ast_list_ok then [Res.astList] else [])
      ++ (if fl.prj_list_ok then [Res.prjList] else [])
    if ¬ fl.ast_list_ok ∨ ¬ fl.prj_list_ok then
      (none, ⟨a1, world_destroy_model none⟩)
    else
      let w1 : PWorld := ⟨fl.ast_list_ok, fl.prj_list_ok, false, false⟩
      if ¬ fl.sim_ok then (none, ⟨a1, world_destroy_model (some w1)⟩)
      else
        let a2 := a1 ++ [Res.simEngine]
        let w2 : PWorld := ⟨w1.asteroid_list, w1.projectile_list, true, false⟩
        if ¬ (fl.handler1_ok ∧ fl.handler2_ok) then
          (none, ⟨a2, world_destroy_model (some w2)⟩)
        else if ¬ fl.queue_ok then
          (none, ⟨a2, world_destroy_model (some w2)⟩)
        else
          let a3 := a2 ++ [Res.eventQueue]
          let w3 : PWorld := ⟨w2.asteroid_list, w2.projectile_list, true, true⟩
          if ¬ fl.player_body_ok then
            (none, ⟨a3, world_destroy_model (some w3)⟩)
          else (some w3, ⟨a3, []⟩)

/-! ## Invariant predicates and concrete instantiations used by the
statements -/

section Preds

variable {K : Type} [LinearOrderedField K]

/-- Worlds related by appending events to the queue and changing nothing
else: the net effect of any sequence of collision callbacks. -/
def queue_ext (w w' : World K) : Prop :=
  ∃ es : List Event, w' = { w with event_queue := w.event_queue ++ es }

/-- Enemy slot `i` holds zero hitpoints (vacuous when out of range). -/
def enemy_zeroed (i : Nat) (w : World K) : Prop :=
  ∀ h : i < w.enemies.length, (w.enemies.get ⟨i, h⟩).hitpoints = 0

/-- Enemy `i`'s body is not registered with the collision engine. -/
def enemy_body_gone (i : Nat) (w : World K) : Prop :=
  BodyRef.enemy i ∉ w.sim_bodies

/-- Enemy slot `i` is occupied, dead, and carries exactly the position,
velocity and rotation of the record `e0`. -/
def dead_frozen (i : Nat) (e0 : Enemy K) (w : World K) : Prop :=
  ∃ h : i < w.enemies.length,
    (w.enemies.get ⟨i, h⟩).x = e0.x ∧ (w.enemies.get ⟨i, h⟩).y = e0.y ∧
    (w.enemies.get ⟨i, h⟩).xvel = e0.xvel ∧ (w.enemies.get ⟨i, h⟩).yvel = e0.yvel ∧
    (w.enemies.get ⟨i, h⟩).rot = e0.rot ∧ (w.enemies.get ⟨i, h⟩).hitpoints ≤ 0

end Preds

/-- Rational stand-in for the real-analytic primitives, used to evaluate the
model on concrete inputs.  The square-root table covers exactly the values
that arise in those runs (distance² = 122500 and steering² = 2500); `atan2`
only feeds the cosmetic rotation field; `pi` is a rational approximation of
`M_PI` — every concrete run below takes the same branches as with the true
irrational values. -/
def opsQ : RealOps ℚ :=
  ⟨fun q => if q = 122500 then 350 else if q = 2500 then 50 else 0,
   fun _ _ => 0,
   355 / 113⟩

/-- Collision oracle reporting no overlapping pairs. -/
def emptyOracle : Nat → List (BodyRef × BodyRef) := fun _ => []

/-- Collision oracle reporting a player-enemy-0 overlap at every step. -/
def hitOracle : Nat → List (BodyRef × BodyRef) :=
  fun _ => [(BodyRef.player, BodyRef.enemy 0)]

/-- A fresh world holding one enemy 350 units below the player (spec record
with speed 50; `world_add_enemy` resets the hitpoints and assigns slot 0). -/
def oneEnemyWorld : World ℚ :=
  (world_add_enemy 8 (world_new_state ℚ) ⟨0, 0, 0, 0, 0, 0, 50, 0, 0, 0⟩ true).1

/-- The same world with the shoot action held. -/
def shootingWorld : World ℚ :=
  (world_add_enemy 8 { world_new_state ℚ with player.actions := ACTION_SHOOT }
    ⟨0, 0, 0, 0, 0, 0, 50, 0, 0, 0⟩ true).1

/-- A fresh world holding one asteroid spinning backwards (rotation speed
-60 radians per second). -/
def backspinWorld : World ℚ :=
  world_add_asteroid (world_new_state ℚ) ⟨0, 100, 100, 2, 3, 0, -60⟩

/-- A world whose only enemy is dead, built by killing slot 0 through an
`EnemyHit` event. -/
def deadEnemyWorld : World ℚ :=
  process_event oneEnemyWorld ⟨EVENT_ENEMY_HIT, 0⟩

/-- A fresh world holding one slowly spinning asteroid (rotation 1 rad,
rotation speed 60 rad/s). -/
def spinWorld : World ℚ :=
  world_add_asteroid (world_new_state ℚ) ⟨0, 5, 6, 1, 2, 1, 60⟩

/-! ## Generic helpers -/

theorem foldl_fix {α γ ε : Type _} (g : α → γ) (f : α → ε → α)
    (h : ∀ a e, g (f a e) = g a) : ∀ (l : List ε) (a : α), g (l.foldl f a) = g a
  | [], _ => rfl
  | e :: l, a => by rw [List.foldl_cons, foldl_fix g f h l (f a e), h]

theorem foldl_inv {α ε : Type _} (P : α → Prop) (f : α → ε → α)
    (h : ∀ a e, P a → P (f a e)) : ∀ (l : List ε) (a : α), P a → P (l.foldl f a)
  | [], _, ha => ha
  | e :: l, a, ha => by
    rw [List.foldl_cons]
    exact foldl_inv P f h l (f a e) (h a e ha)

theorem length_modify_at {α : Type} (f : α → α) (i : Nat) (l : List α) :
    (modify_at i f l).length = l.length := by
  induction l generalizing i with
  | nil => simp [modify_at]
  | cons x xs ih =>
    cases i with
    | zero => simp [modify_at]
    | succ n => simpa [modify_at] using ih n

theorem get_modify_at {α : Type} (f : α → α) (i : Nat) (l : List α) (j : Nat)
    (hj : j < l.length) (hj' : j < (modify_at i f l).length) :
    (modify_at i f l).get ⟨j, hj'⟩
      = if j = i then f (l.get ⟨j, hj⟩) else l.get ⟨j, hj⟩ := by
  induction l generalizing i j with
  | nil => exact absurd hj (by simp)
  | cons x xs ih =>
    cases i with
    | zero =>
      cases j with
      | zero => rfl
      | succ m => simp [modify_at]
    | succ n =>
      cases j with
      | zero => simp [modify_at]
      | succ m =>
        have := ih n m (by simpa using hj) (by simpa [modify_at, length_modify_at] using hj')
        simpa [modify_at, Nat.succ_inj] using this

section ModelLemmas

variable {K : Type} [LinearOrderedField K]

theorem queue_ext_refl (w : World K) : queue_ext w w :=
  ⟨[], by cases w; simp⟩

theorem queue_ext_trans {w w' w'' : World K} :
    queue_ext w w' → queue_ext w' w'' → queue_ext w w'' := by
  rintro ⟨es1, rfl⟩ ⟨es2, rfl⟩
  exact ⟨es1 ++ es2, by simp⟩

theorem handle_pc_ext (a b : SimBody) (w : World K) :
    queue_ext w (handle_player_collision a b w).1 := by
  unfold handle_player_collision
  split
  · exact queue_ext_refl w
  · dsimp only
    split_ifs <;> first | exact ⟨[_], rfl⟩ | exact queue_ext_refl w

theorem deliver_handlers_ext (w : World K) (a b : SimBody) :
    queue_ext w (deliver_handlers w a b) := by
  unfold deliver_handlers
  have h : ∀ (l : List Nat) (acc : World K × Bool),
      queue_ext acc.1 (l.foldl (fun acc m =>
        if acc.2 then acc
        else if a.type ||| b.type = m then
          let r := handle_player_collision a b acc.1
          (r.1, r.2 ≠ 1)
        else acc) acc).1 := by
    intro l
    induction l with
    | nil => intro acc; exact queue_ext_refl _
    | cons m l ih =>
      intro acc
      rw [List.foldl_cons]
      refine queue_ext_trans ?_ (ih _)
      dsimp only
      split
      · exact queue_ext_refl _
      · split
        · exact handle_pc_ext a b acc.1
        · exact queue_ext_refl _
  exact h w.handler_masks (w, false)

theorem sim_step_ext (w : World K) (pairs : List (BodyRef × BodyRef)) :
    queue_ext w (sim_step w pairs).1 := by
  unfold sim_step
  have h : ∀ (l : List (BodyRef × BodyRef)) (acc : World K × List (BodyRef × BodyRef)),
      queue_ext acc.1 (l.foldl (fun acc p =>
        if p.1 ∈ acc.1.sim_bodies ∧ p.2 ∈ acc.1.sim_bodies then
          (deliver_handlers acc.1 (sim_body_view acc.1 p.1) (sim_body_view acc.1 p.2),
           acc.2 ++ [p])
        else acc) acc).1 := by
    intro l
    induction l with
    | nil => intro acc; exact queue_ext_refl _
    | cons p l ih =>
      intro acc
      rw [List.foldl_cons]
      refine queue_ext_trans ?_ (ih _)
      dsimp only
      split
      · exact deliver_handlers_ext acc.1 _ _
      · exact queue_ext_refl _
  exact h pairs (w, [])

theorem physics_loop_ext [FloorRing K] (w : World K) (acc : K)
    (oracle : Nat → List (BodyRef × BodyRef)) (n : Nat) :
    queue_ext w (physics_loop w acc oracle n).world := by
  rw [physics_loop]
  split
  · exact queue_ext_trans (sim_step_ext w (oracle n))
      (physics_loop_ext (sim_step w (oracle n)).1 (acc - SIMULATION_STEP K) oracle (n + 1))
  · exact queue_ext_refl w
termination_by (⌊acc / SIMULATION_STEP K⌋).toNat
decreasing_by
  have hstep : (0 : K) < SIMULATION_STEP K := by norm_num [SIMULATION_STEP]
  have h1 : (acc - SIMULATION_STEP K) / SIMULATION_STEP K
      = acc / SIMULATION_STEP K - 1 := by field_simp
  have h2 : (1 : K) ≤ acc / SIMULATION_STEP K := by
    exact (one_le_div hstep).2 (by assumption)
  have h3 : (1 : ℤ) ≤ ⌊acc / SIMULATION_STEP K⌋ := Int.le_floor.2 (by exact_mod_cast h2)
  have h4 : ⌊(acc - SIMULATION_STEP K) / SIMULATION_STEP K⌋
      = ⌊acc / SIMULATION_STEP K⌋ - 1 := by
    rw [h1]
    exact_mod_cast Int.floor_sub_int (acc / SIMULATION_STEP K) 1
  rw [h4]
  omega

end ModelLemmas

theorem queue_ext_same {K : Type} [LinearOrderedField K] {w w' : World K}
    (h : queue_ext w w') :
    w'.player = w.player ∧ w'.asteroid_list = w.asteroid_list ∧
    w'.projectile_list = w.projectile_list ∧ w'.enemies = w.enemies ∧
    w'.sim_bodies = w.sim_bodies ∧ w'.handler_masks = w.handler_masks ∧
    w'.sim_acc = w.sim_acc := by
  obtain ⟨es, rfl⟩ := h
  exact ⟨rfl, rfl, rfl, rfl, rfl, rfl, rfl⟩

theorem queue_ext_queue {K : Type} [LinearOrderedField K] {w w' : World K}
    (h : queue_ext w w') : ∃ es, w'.event_queue = w.event_queue ++ es := by
  obtain ⟨es, rfl⟩ := h
  exact ⟨es, rfl⟩

section LoopSpec

variable {K : Type} [LinearOrderedField K]

theorem SIMULATION_STEP_pos : (0 : K) < SIMULATION_STEP K := by
  norm_num [SIMULATION_STEP]

/-- Arithmetic of the accumulator loop: the leftover is the input time minus
the consumed steps, is nonnegative, and is strictly below one step. -/
theorem physics_loop_spec [FloorRing K] (w : World K) (acc : K)
    (oracle : Nat → List (BodyRef × BodyRef)) (n : Nat) (hacc : 0 ≤ acc) :
    (physics_loop w acc oracle n).acc
        = acc - ((physics_loop w acc oracle n).steps : K) * SIMULATION_STEP K ∧
      0 ≤ (physics_loop w acc oracle n).acc ∧
      (physics_loop w acc oracle n).acc < SIMULATION_STEP K := by
  rw [physics_loop]
  split
  case isTrue h =>
    have hrec := physics_loop_spec (sim_step w (oracle n)).1 (acc - SIMULATION_STEP K)
      oracle (n + 1) (by linarith)
    dsimp only
    refine ⟨?_, hrec.2.1, hrec.2.2⟩
    rw [hrec.1]
    push_cast
    ring
  case isFalse h =>
    dsimp only
    exact ⟨by push_cast; ring, hacc, lt_of_not_le h⟩
termination_by (⌊acc / SIMULATION_STEP K⌋).toNat
decreasing_by
  have hstep : (0 : K) < SIMULATION_STEP K := SIMULATION_STEP_pos
  have h1 : (acc - SIMULATION_STEP K) / SIMULATION_STEP K
      = acc / SIMULATION_STEP K - 1 := by field_simp
  have h2 : (1 : K) ≤ acc / SIMULATION_STEP K := by
    exact (one_le_div hstep).2 (by assumption)
  have h3 : (1 : ℤ) ≤ ⌊acc / SIMULATION_STEP K⌋ := Int.le_floor.2 (by exact_mod_cast h2)
  have h4 : ⌊(acc - SIMULATION_STEP K) / SIMULATION_STEP K⌋
      = ⌊acc / SIMULATION_STEP K⌋ - 1 := by
    rw [h1]
    exact_mod_cast Int.floor_sub_int (acc / SIMULATION_STEP K) 1
  rw [h4]
  omega

/-- A step count whose leftover lies in `[0, step)` is the floor of the
total over the step size. -/
theorem steps_eq_floor [FloorRing K] {a s : K} {N : Nat} (hs : 0 < s)
    (h1 : 0 ≤ a - (N : K) * s) (h2 : a - (N : K) * s < s) :
    ⌊a / s⌋ = (N : ℤ) := by
  rw [Int.floor_eq_iff]
  constructor
  · rw [le_div_iff hs]
    push_cast
    linarith
  · rw [div_lt_iff hs]
    push_cast
    linarith

end LoopSpec

section PhaseLemmas

variable {K : Type} [LinearOrderedField K]

/-- All the world components that one event-processing iteration leaves
untouched (it only writes the player's hitpoints, one enemy's hitpoints and
the engine's body set). -/
theorem process_event_fields (w : World K) (e : Event) :
    (process_event w e).sim_acc = w.sim_acc ∧
    (process_event w e).event_queue = w.event_queue ∧
    (process_event w e).asteroid_list = w.asteroid_list ∧
    (process_event w e).projectile_list = w.projectile_list ∧
    (process_event w e).handler_masks = w.handler_masks ∧
    (process_event w e).enemies.length = w.enemies.length ∧
    (process_event w e).player.x = w.player.x ∧
    (process_event w e).player.y = w.player.y ∧
    (process_event w e).player.actions = w.player.actions ∧
    (process_event w e).player.speed = w.player.speed ∧
    (process_event w e).player.shoot_cooldown = w.player.shoot_cooldown := by
  unfold process_event
  split <;> simp [length_modify_at]

theorem events_fold_fields (w : World K) (l : List Event) :
    (l.foldl process_event w).sim_acc = w.sim_acc ∧
    (l.foldl process_event w).event_queue = w.event_queue ∧
    (l.foldl process_event w).asteroid_list = w.asteroid_list ∧
    (l.foldl process_event w).projectile_list = w.projectile_list ∧
    (l.foldl process_event w).handler_masks = w.handler_masks ∧
    (l.foldl process_event w).enemies.length = w.enemies.length ∧
    (l.foldl process_event w).player.x = w.player.x ∧
    (l.foldl process_event w).player.y = w.player.y ∧
    (l.foldl process_event w).player.actions = w.player.actions ∧
    (l.foldl process_event w).player.speed = w.player.speed ∧
    (l.foldl process_event w).player.shoot_cooldown = w.player.shoot_cooldown := by
  refine foldl_inv (fun v : World K =>
      v.sim_acc = w.sim_acc ∧ v.event_queue = w.event_queue ∧
      v.asteroid_list = w.asteroid_list ∧ v.projectile_list = w.projectile_list ∧
      v.handler_masks = w.handler_masks ∧ v.enemies.length = w.enemies.length ∧
      v.player.x = w.player.x ∧ v.player.y = w.player.y ∧
      v.player.actions = w.player.actions ∧ v.player.speed = w.player.speed ∧
      v.player.shoot_cooldown = w.player.shoot_cooldown)
    process_event ?_ l w
    ⟨rfl, rfl, rfl, rfl, rfl, rfl, rfl, rfl, rfl, rfl, rfl⟩
  intro a e h
  obtain ⟨h1, h2, h3, h4, h5, h6, h7, h8, h9, h10, h11⟩ := h
  obtain ⟨g1, g2, g3, g4, g5, g6, g7, g8, g9, g10, g11⟩ := process_event_fields a e
  exact ⟨g1.trans h1, g2.trans h2, g3.trans h3, g4.trans h4, g5.trans h5, g6.trans h6,
    g7.trans h7, g8.trans h8, g9.trans h9, g10.trans h10, g11.trans h11⟩

/-- The player's hitpoints after the event drain: each `EnemyHit` event in
the queue costs exactly the enemy-collision damage; nothing else changes
them. -/
theorem events_fold_hitpoints (l : List Event) (w : World K) :
    (l.foldl process_event w).player.hitpoints
      = w.player.hitpoints
        - ENEMY_COLLISION_DAMAGE K
          * ((l.filter fun e => e.type = EVENT_ENEMY_HIT).length : K) := by
  induction l generalizing w with
  | nil => simp
  | cons e l ih =>
    rw [List.foldl_cons, ih]
    by_cases he : e.type = EVENT_ENEMY_HIT
    · have hp : (process_event w e).player.hitpoints
          = w.player.hitpoints - ENEMY_COLLISION_DAMAGE K := by
        unfold process_event
        rw [if_pos he]
      rw [hp, List.filter_cons, if_pos (by simpa using he)]
      simp only [List.length_cons]
      push_cast
      ring
    · have hp : (process_event w e).player.hitpoints = w.player.hitpoints := by
        unfold process_event
        rw [if_neg he]
      rw [hp, List.filter_cons, if_neg (by simpa using he)]

theorem player_move_phase_fields (w : World K) (dt : K) :
    (player_move_phase w dt).sim_acc = w.sim_acc ∧
    (player_move_phase w dt).event_queue = w.event_queue ∧
    (player_move_phase w dt).asteroid_list = w.asteroid_list ∧
    (player_move_phase w dt).projectile_list = w.projectile_list ∧
    (player_move_phase w dt).enemies = w.enemies ∧
    (player_move_phase w dt).sim_bodies = w.sim_bodies ∧
    (player_move_phase w dt).player.hitpoints = w.player.hitpoints ∧
    (player_move_phase w dt).player.actions = w.player.actions ∧
    (player_move_phase w dt).player.shoot_cooldown = w.player.shoot_cooldown := by
  exact ⟨rfl, rfl, rfl, rfl, rfl, rfl, rfl, rfl, rfl⟩

theorem shoot_phase_fields (w : World K) (dt : K) (alloc : Bool) :
    (shoot_phase w dt alloc).1.sim_acc = w.sim_acc ∧
    (shoot_phase w dt alloc).1.event_queue = w.event_queue ∧
    (shoot_phase w dt alloc).1.asteroid_list = w.asteroid_list ∧
    (shoot_phase w dt alloc).1.enemies = w.enemies ∧
    (shoot_phase w dt alloc).1.sim_bodies = w.sim_bodies ∧
    (shoot_phase w dt alloc).1.player.hitpoints = w.player.hitpoints ∧
    (shoot_phase w dt alloc).1.player.x = w.player.x ∧
    (shoot_phase w dt alloc).1.player.y = w.player.y := by
  unfold shoot_phase
  dsimp only
  split
  · split <;> exact ⟨rfl, rfl, rfl, rfl, rfl, rfl, rfl, rfl⟩
  · exact ⟨rfl, rfl, rfl, rfl, rfl, rfl, rfl, rfl⟩

theorem enemies_phase_fields (ops : RealOps K) (w : World K) (dt : K) :
    (enemies_phase ops w dt).sim_acc = w.sim_acc ∧
    (enemies_phase ops w dt).event_queue = w.event_queue ∧
    (enemies_phase ops w dt).asteroid_list = w.asteroid_list ∧
    (enemies_phase ops w dt).projectile_list = w.projectile_list ∧
    (enemies_phase ops w dt).sim_bodies = w.sim_bodies ∧
    (enemies_phase ops w dt).player = w.player ∧
    (enemies_phase ops w dt).enemies.length = w.enemies.length := by
  refine ⟨rfl, rfl, rfl, rfl, rfl, rfl, ?_⟩
  simp [enemies_phase]

theorem asteroids_phase_fields (ops : RealOps K) (w : World K) (dt : K) :
    (asteroids_phase ops w dt).sim_acc = w.sim_acc ∧
    (asteroids_phase ops w dt).event_queue = w.event_queue ∧
    (asteroids_phase ops w dt).projectile_list = w.projectile_list ∧
    (asteroids_phase ops w dt).enemies = w.enemies ∧
    (asteroids_phase ops w dt).sim_bodies = w.sim_bodies ∧
    (asteroids_phase ops w dt).player = w.player ∧
    (asteroids_phase ops w dt).asteroid_list.length = w.asteroid_list.length := by
  refine ⟨rfl, rfl, rfl, rfl, rfl, rfl, ?_⟩
  simp [asteroids_phase]

theorem projectiles_phase_fields (w : World K) (dt : K) :
    (projectiles_phase w dt).sim_acc = w.sim_acc ∧
    (projectiles_phase w dt).event_queue = w.event_queue ∧
    (projectiles_phase w dt).asteroid_list = w.asteroid_list ∧
    (projectiles_phase w dt).enemies = w.enemies ∧
    (projectiles_phase w dt).sim_bodies = w.sim_bodies ∧
    (projectiles_phase w dt).player = w.player := by
  exact ⟨rfl, rfl, rfl, rfl, rfl, rfl⟩

end PhaseLemmas

section WorldLemmas

variable {K : Type} [LinearOrderedField K]

theorem physics_loop_stop [FloorRing K] (w : World K) (acc : K)
    (oracle : Nat → List (BodyRef × BodyRef)) (n : Nat)
    (h : ¬ SIMULATION_STEP K ≤ acc) :
    physics_loop w acc oracle n = ⟨w, acc, 0, []⟩ := by
  rw [physics_loop]
  exact dif_neg h

theorem physics_loop_step [FloorRing K] (w : World K) (acc : K)
    (oracle : Nat → List (BodyRef × BodyRef)) (n : Nat)
    (h : SIMULATION_STEP K ≤ acc) :
    physics_loop w acc oracle n
      = ⟨(physics_loop (sim_step w (oracle n)).1 (acc - SIMULATION_STEP K) oracle (n + 1)).world,
         (physics_loop (sim_step w (oracle n)).1 (acc - SIMULATION_STEP K) oracle (n + 1)).acc,
         (physics_loop (sim_step w (oracle n)).1 (acc - SIMULATION_STEP K) oracle (n + 1)).steps + 1,
         (sim_step w (oracle n)).2
           ++ (physics_loop (sim_step w (oracle n)).1 (acc - SIMULATION_STEP K) oracle (n + 1)).callbacks⟩ := by
  rw [physics_loop]
  exact dif_pos h

/-- Every pair delivered to a collision callback during a step has both
bodies registered with the engine at that moment. -/
theorem sim_step_callbacks (w : World K) (pairs : List (BodyRef × BodyRef)) :
    ∀ p ∈ (sim_step w pairs).2, p.1 ∈ w.sim_bodies ∧ p.2 ∈ w.sim_bodies := by
  unfold sim_step
  have h : ∀ (l : List (BodyRef × BodyRef)) (acc : World K × List (BodyRef × BodyRef)),
      queue_ext w acc.1 →
      (∀ p ∈ acc.2, p.1 ∈ w.sim_bodies ∧ p.2 ∈ w.sim_bodies) →
      ∀ p ∈ (l.foldl (fun acc p =>
        if p.1 ∈ acc.1.sim_bodies ∧ p.2 ∈ acc.1.sim_bodies then
          (deliver_handlers acc.1 (sim_body_view acc.1 p.1) (sim_body_view acc.1 p.2),
           acc.2 ++ [p])
        else acc) acc).2, p.1 ∈ w.sim_bodies ∧ p.2 ∈ w.sim_bodies := by
    intro l
    induction l with
    | nil => intro acc _ hmem; exact hmem
    | cons q l ih =>
      intro acc hext hmem
      rw [List.foldl_cons]
      split
      case isTrue hin =>
        refine ih _ (queue_ext_trans hext (deliver_handlers_ext acc.1 _ _)) ?_
        intro p hp
        rcases List.mem_append.1 hp with h1 | h2
        · exact hmem p h1
        · have hq : p = q := by simpa using h2
          have hb : acc.1.sim_bodies = w.sim_bodies := (queue_ext_same hext).2.2.2.2.1
          rw [hq]
          rw [hb] at hin
          exact hin
      case isFalse hin => exact ih _ hext hmem
  exact h pairs (w, []) (queue_ext_refl w) (by simp)

/-- Every pair delivered during the whole physics phase has both bodies in
the engine's body set as it stood at the start of the phase (callbacks never
register or remove bodies). -/
theorem physics_loop_callbacks [FloorRing K] (w : World K) (acc : K)
    (oracle : Nat → List (BodyRef × BodyRef)) (n : Nat) :
    ∀ p ∈ (physics_loop w acc oracle n).callbacks,
      p.1 ∈ w.sim_bodies ∧ p.2 ∈ w.sim_bodies := by
  rw [physics_loop]
  split
  case isTrue h =>
    intro p hp
    rcases List.mem_append.1 hp with h1 | h2
    · exact sim_step_callbacks w (oracle n) p h1
    · have hb : (sim_step w (oracle n)).1.sim_bodies = w.sim_bodies :=
        (queue_ext_same (sim_step_ext w (oracle n))).2.2.2.2.1
      have hrec := physics_loop_callbacks (sim_step w (oracle n)).1
        (acc - SIMULATION_STEP K) oracle (n + 1) p h2
      rw [hb] at hrec
      exact hrec
  case isFalse h =>
    intro p hp
    simp at hp
termination_by (⌊acc / SIMULATION_STEP K⌋).toNat
decreasing_by
  have hstep : (0 : K) < SIMULATION_STEP K := SIMULATION_STEP_pos
  have h1 : (acc - SIMULATION_STEP K) / SIMULATION_STEP K
      = acc / SIMULATION_STEP K - 1 := by field_simp
  have h2 : (1 : K) ≤ acc / SIMULATION_STEP K := by
    exact (one_le_div hstep).2 (by assumption)
  have h3 : (1 : ℤ) ≤ ⌊acc / SIMULATION_STEP K⌋ := Int.le_floor.2 (by exact_mod_cast h2)
  have h4 : ⌊(acc - SIMULATION_STEP K) / SIMULATION_STEP K⌋
      = ⌊acc / SIMULATION_STEP K⌋ - 1 := by
    rw [h1]
    exact_mod_cast Int.floor_sub_int (acc / SIMULATION_STEP K) 1
  rw [h4]
  omega

/-- `world_update` written as its phase composition (definitional). -/
theorem world_update_cases [FloorRing K] (ops : RealOps K) (w : World K) (dt : K)
    (oracle : Nat → List (BodyRef × BodyRef)) (alloc : Bool) :
    world_update ops w dt oracle alloc
      = (if (shoot_phase (player_move_phase
              (events_phase { (physics_loop w (w.sim_acc + dt) oracle 0).world with
                sim_acc := (physics_loop w (w.sim_acc + dt) oracle 0).acc }).1 dt) dt alloc).2
            = false then
          ⟨(shoot_phase (player_move_phase
              (events_phase { (physics_loop w (w.sim_acc + dt) oracle 0).world with
                sim_acc := (physics_loop w (w.sim_acc + dt) oracle 0).acc }).1 dt) dt alloc).1,
            (physics_loop w (w.sim_acc + dt) oracle 0).steps,
            (physics_loop w (w.sim_acc + dt) oracle 0).callbacks,
            (events_phase { (physics_loop w (w.sim_acc + dt) oracle 0).world with
              sim_acc := (physics_loop w (w.sim_acc + dt) oracle 0).acc }).2, 0⟩
        else
          ⟨projectiles_phase (asteroids_phase ops (enemies_phase ops
              (shoot_phase (player_move_phase
                (events_phase { (physics_loop w (w.sim_acc + dt) oracle 0).world with
                  sim_acc := (physics_loop w (w.sim_acc + dt) oracle 0).acc }).1 dt) dt alloc).1
              dt) dt) dt,
            (physics_loop w (w.sim_acc + dt) oracle 0).steps,
            (physics_loop w (w.sim_acc + dt) oracle 0).callbacks,
            (events_phase { (physics_loop w (w.sim_acc + dt) oracle 0).world with
              sim_acc := (physics_loop w (w.sim_acc + dt) oracle 0).acc }).2, 1⟩) := rfl

/-- Fields of the world after the enemy, asteroid and projectile blocks
that close a non-aborted frame. -/
theorem post_phases_fields (ops : RealOps K) (w : World K) (dt : K) :
    (projectiles_phase (asteroids_phase ops (enemies_phase ops w dt) dt) dt).event_queue
        = w.event_queue ∧
    (projectiles_phase (asteroids_phase ops (enemies_phase ops w dt) dt) dt).sim_acc
        = w.sim_acc ∧
    (projectiles_phase (asteroids_phase ops (enemies_phase ops w dt) dt) dt).enemies.length
        = w.enemies.length ∧
    (projectiles_phase (asteroids_phase ops (enemies_phase ops w dt) dt) dt).player
        = w.player ∧
    (projectiles_phase (asteroids_phase ops (enemies_phase ops w dt) dt) dt).sim_bodies
        = w.sim_bodies := by
  refine ⟨rfl, rfl, ?_, rfl, rfl⟩
  simp [projectiles_phase, asteroids_phase, enemies_phase]

/-- Fields of the world after the drain, player-move and shoot blocks,
relative to the world entering the drain. -/
theorem drain_to_shoot_fields (w1 : World K) (dt : K) (alloc : Bool) :
    (shoot_phase (player_move_phase (events_phase w1).1 dt) dt alloc).1.event_queue = [] ∧
    (shoot_phase (player_move_phase (events_phase w1).1 dt) dt alloc).1.sim_acc = w1.sim_acc ∧
    (shoot_phase (player_move_phase (events_phase w1).1 dt) dt alloc).1.enemies.length
      = w1.enemies.length ∧
    (shoot_phase (player_move_phase (events_phase w1).1 dt) dt alloc).1.player.hitpoints
      = w1.player.hitpoints - ENEMY_COLLISION_DAMAGE K
        * ((w1.event_queue.filter fun e => e.type = EVENT_ENEMY_HIT).length : K) ∧
    (events_phase w1).2 = w1.event_queue := by
  obtain ⟨f1, f2, f3, f4, f5, f6, f7, f8, f9, f10, f11⟩ :=
    events_fold_fields w1 w1.event_queue
  obtain ⟨m1, m2, m3, m4, m5, m6, m7, m8, m9⟩ :=
    player_move_phase_fields (events_phase w1).1 dt
  obtain ⟨s1, s2, s3, s4, s5, s6, s7, s8⟩ :=
    shoot_phase_fields (player_move_phase (events_phase w1).1 dt) dt alloc
  have he_queue : (events_phase w1).1.event_queue = [] := rfl
  have he_hp : (events_phase w1).1.player.hitpoints
      = w1.player.hitpoints - ENEMY_COLLISION_DAMAGE K
        * ((w1.event_queue.filter fun e => e.type = EVENT_ENEMY_HIT).length : K) :=
    events_fold_hitpoints w1.event_queue w1
  have he_acc : (events_phase w1).1.sim_acc = w1.sim_acc := f1
  have he_len : (events_phase w1).1.enemies.length = w1.enemies.length := f6
  refine ⟨?_, ?_, ?_, ?_, rfl⟩
  · rw [s2, m2, he_queue]
  · rw [s1, m1, he_acc]
  · rw [s4, m5, he_len]
  · rw [s6, m7, he_hp]

/-- The observable outcome of `world_update` shared by both the normal and
the aborted frame: the queue ends empty, the leftover accumulator and step
count come from the physics loop, the processed events are exactly the
queue as it stood after the physics steps (entry events followed by the
events the steps produced), the enemy array size is unchanged, and the
player pays the enemy-collision damage once per processed `EnemyHit`. -/
theorem world_update_base [FloorRing K] (ops : RealOps K) (w : World K) (dt : K)
    (oracle : Nat → List (BodyRef × BodyRef)) (alloc : Bool) :
    (world_update ops w dt oracle alloc).world.event_queue = [] ∧
    (world_update ops w dt oracle alloc).world.sim_acc
        = (physics_loop w (w.sim_acc + dt) oracle 0).acc ∧
    (world_update ops w dt oracle alloc).steps
        = (physics_loop w (w.sim_acc + dt) oracle 0).steps ∧
    (world_update ops w dt oracle alloc).callbacks
        = (physics_loop w (w.sim_acc + dt) oracle 0).callbacks ∧
    (world_update ops w dt oracle alloc).processed
        = (physics_loop w (w.sim_acc + dt) oracle 0).world.event_queue ∧
    (world_update ops w dt oracle alloc).world.enemies.length = w.enemies.length ∧
    (world_update ops w dt oracle alloc).world.player.hitpoints
        = w.player.hitpoints - ENEMY_COLLISION_DAMAGE K
          * (((physics_loop w (w.sim_acc + dt) oracle 0).world.event_queue.filter
                fun e => e.type = EVENT_ENEMY_HIT).length : K) := by
  have hext := physics_loop_ext w (w.sim_acc + dt) oracle 0
  obtain ⟨hplayer, hast, hprj, hens, hbodies, hmasks, hacc⟩ := queue_ext_same hext
  obtain ⟨d1, d2, d3, d4, d5⟩ := drain_to_shoot_fields
    { (physics_loop w (w.sim_acc + dt) oracle 0).world with
      sim_acc := (physics_loop w (w.sim_acc + dt) oracle 0).acc } dt alloc
  obtain ⟨p1, p2, p3, p4, p5⟩ := post_phases_fields ops
    (shoot_phase (player_move_phase (events_phase
      { (physics_loop w (w.sim_acc + dt) oracle 0).world with
        sim_acc := (physics_loop w (w.sim_acc + dt) oracle 0).acc }).1 dt) dt alloc).1 dt
  rw [world_update_cases]
  split
  · refine ⟨d1, d2, rfl, rfl, d5, ?_, ?_⟩
    · rw [d3]
      simpa using congrArg List.length hens
    · rw [d4]
      simp [hplayer]
  · refine ⟨by rw [p1, d1], by rw [p2, d2], rfl, rfl, d5, ?_, ?_⟩
    · rw [p3, d3]
      simpa using congrArg List.length hens
    · rw [p4, d4]
      simp [hplayer]

/-- Accumulator bookkeeping over any sequence of frames: from a reachable
accumulator state (inside `[0, step)`), the leftover equals the carried-in
time plus all reported `dt` minus the consumed steps, and stays inside
`[0, step)` after every call. -/
theorem run_updates_acc [FloorRing K] (ops : RealOps K) (fs : List (FrameIn K)) :
    ∀ w : World K, 0 ≤ w.sim_acc → w.sim_acc < SIMULATION_STEP K →
      (∀ f ∈ fs, 0 ≤ f.dt) →
      (run_updates ops w fs).1.sim_acc
          = w.sim_acc + (fs.map FrameIn.dt).sum
            - (((run_updates ops w fs).2.1 : K) * SIMULATION_STEP K) ∧
        0 ≤ (run_updates ops w fs).1.sim_acc ∧
        (run_updates ops w fs).1.sim_acc < SIMULATION_STEP K := by
  induction fs with
  | nil =>
    intro w h0 h1 _
    exact ⟨by simp [run_updates], h0, h1⟩
  | cons f fs ih =>
    intro w h0 h1 hdt
    have hdtf : 0 ≤ f.dt := hdt f (by simp)
    obtain ⟨_, hacc, hsteps, _, _, _, _⟩ := world_update_base ops w f.dt f.oracle f.alloc
    obtain ⟨ps1, ps2, ps3⟩ := physics_loop_spec w (w.sim_acc + f.dt) f.oracle 0 (by linarith)
    have hout_acc : (world_update ops w f.dt f.oracle f.alloc).world.sim_acc
        = (w.sim_acc + f.dt)
          - ((world_update ops w f.dt f.oracle f.alloc).steps : K) * SIMULATION_STEP K := by
      rw [hacc, hsteps, ps1]
    have hout_0 : 0 ≤ (world_update ops w f.dt f.oracle f.alloc).world.sim_acc := by
      rw [hacc]; exact ps2
    have hout_lt : (world_update ops w f.dt f.oracle f.alloc).world.sim_acc
        < SIMULATION_STEP K := by
      rw [hacc]; exact ps3
    obtain ⟨ih1, ih2, ih3⟩ := ih (world_update ops w f.dt f.oracle f.alloc).world
      hout_0 hout_lt (fun g hg => hdt g (by simp [hg]))
    have hrun : run_updates ops w (f :: fs)
        = ((run_updates ops (world_update ops w f.dt f.oracle f.alloc).world fs).1,
           (world_update ops w f.dt f.oracle f.alloc).steps
             + (run_updates ops (world_update ops w f.dt f.oracle f.alloc).world fs).2.1,
           (world_update ops w f.dt f.oracle f.alloc).callbacks
             ++ (run_updates ops (world_update ops w f.dt f.oracle f.alloc).world fs).2.2) :=
      rfl
    rw [hrun]
    refine ⟨?_, ih2, ih3⟩
    rw [ih1, hout_acc]
    simp only [List.map_cons, List.sum_cons]
    push_cast
    ring

theorem get_map_eq {α β : Type} (f : α → β) (l : List α) (j : Nat)
    (h1 : j < l.length) (h2 : j < (l.map f).length) :
    (l.map f).get ⟨j, h2⟩ = f (l.get ⟨j, h1⟩) := by
  simp

end WorldLemmas

section InvLemmas

variable {K : Type} [LinearOrderedField K]

theorem process_event_preserves_zeroed {i : Nat} {w : World K} (e : Event)
    (h : enemy_zeroed i w) : enemy_zeroed i (process_event w e) := by
  unfold process_event
  split
  · intro hlen
    have hlen0 : i < w.enemies.length := by
      simpa [length_modify_at] using hlen
    rw [get_modify_at _ e.entity_hnd w.enemies i hlen0 (by simpa using hlen)]
    split
    · rfl
    · exact h hlen0
  · exact h

theorem process_event_sets_zeroed {w : World K} {e : Event}
    (he : e.type = EVENT_ENEMY_HIT) : enemy_zeroed e.entity_hnd (process_event w e) := by
  unfold process_event
  rw [if_pos he]
  intro hlen
  have hlen0 : e.entity_hnd < w.enemies.length := by
    simpa [length_modify_at] using hlen
  rw [get_modify_at _ e.entity_hnd w.enemies e.entity_hnd hlen0 (by simpa using hlen)]
  rw [if_pos rfl]

theorem events_fold_zeroed {i : Nat} {l : List Event} {w : World K} (ev : Event)
    (hmem : ev ∈ l) (he : ev.type = EVENT_ENEMY_HIT) (hi : i = ev.entity_hnd) :
    enemy_zeroed i (l.foldl process_event w) := by
  obtain ⟨l1, l2, rfl⟩ := List.append_of_mem hmem
  rw [List.foldl_append, List.foldl_cons]
  refine foldl_inv (enemy_zeroed i) process_event
    (fun a e h => process_event_preserves_zeroed e h) l2 _ ?_
  rw [hi]
  exact process_event_sets_zeroed he

theorem enemies_phase_preserves_zeroed {i : Nat} {w : World K} (ops : RealOps K)
    (dt : K) (h : enemy_zeroed i w) : enemy_zeroed i (enemies_phase ops w dt) := by
  intro hlen
  have hlen0 : i < w.enemies.length := by
    simpa [enemies_phase] using hlen
  show ((w.enemies.map _).get ⟨i, hlen⟩).hitpoints = 0
  rw [get_map_eq _ w.enemies i hlen0 hlen]
  rw [if_pos (by rw [h hlen0])]
  exact h hlen0

theorem process_event_preserves_gone {i : Nat} {w : World K} (e : Event)
    (h : enemy_body_gone i w) : enemy_body_gone i (process_event w e) := by
  unfold process_event
  split
  · intro hmem
    exact h (List.erase_subset _ _ hmem)
  · exact h

theorem process_event_sets_gone {w : World K} {e : Event}
    (hnd : w.sim_bodies.Nodup) (he : e.type = EVENT_ENEMY_HIT) :
    enemy_body_gone e.entity_hnd (process_event w e) := by
  unfold process_event
  rw [if_pos he]
  intro hmem
  exact ((hnd.mem_erase_iff.1 hmem).1) rfl

theorem process_event_preserves_nodup {w : World K} (e : Event)
    (h : w.sim_bodies.Nodup) : (process_event w e).sim_bodies.Nodup := by
  unfold process_event
  split
  · exact h.erase _
  · exact h

theorem events_fold_gone {l : List Event} {w : World K} (ev : Event)
    (hmem : ev ∈ l) (he : ev.type = EVENT_ENEMY_HIT) (hnd : w.sim_bodies.Nodup) :
    enemy_body_gone ev.entity_hnd (l.foldl process_event w) := by
  obtain ⟨l1, l2, rfl⟩ := List.append_of_mem hmem
  rw [List.foldl_append, List.foldl_cons]
  refine foldl_inv (enemy_body_gone ev.entity_hnd) process_event
    (fun a e h => process_event_preserves_gone e h) l2 _ ?_
  refine process_event_sets_gone ?_ he
  exact foldl_inv (fun v : World K => v.sim_bodies.Nodup) process_event
    (fun a e h => process_event_preserves_nodup e h) l1 w hnd

theorem events_fold_preserves_gone {i : Nat} {l : List Event} {w : World K}
    (h : enemy_body_gone i w) : enemy_body_gone i (l.foldl process_event w) :=
  foldl_inv (enemy_body_gone i) process_event
    (fun a e hh => process_event_preserves_gone e hh) l w h

theorem events_fold_preserves_nodup {l : List Event} {w : World K}
    (h : w.sim_bodies.Nodup) : (l.foldl process_event w).sim_bodies.Nodup :=
  foldl_inv (fun v : World K => v.sim_bodies.Nodup) process_event
    (fun a e hh => process_event_preserves_nodup e hh) l w h

theorem enemy_zeroed_congr {i : Nat} {w w' : World K} (h : w'.enemies = w.enemies) :
    enemy_zeroed i w → enemy_zeroed i w' := by
  unfold enemy_zeroed
  rw [h]
  exact id

theorem dead_frozen_congr {i : Nat} {e0 : Enemy K} {w w' : World K}
    (h : w'.enemies = w.enemies) : dead_frozen i e0 w → dead_frozen i e0 w' := by
  unfold dead_frozen
  rw [h]
  exact id

theorem enemy_body_gone_congr {i : Nat} {w w' : World K}
    (h : w'.sim_bodies = w.sim_bodies) : enemy_body_gone i w → enemy_body_gone i w' := by
  unfold enemy_body_gone
  rw [h]
  exact id

theorem process_event_preserves_frozen {i : Nat} {e0 : Enemy K} {w : World K}
    (e : Event) (h : dead_frozen i e0 w) : dead_frozen i e0 (process_event w e) := by
  obtain ⟨hlen, h1, h2, h3, h4, h5, h6⟩ := h
  unfold process_event
  split
  · refine ⟨by simpa [length_modify_at] using hlen, ?_⟩
    rw [get_modify_at _ e.entity_hnd w.enemies i hlen
      (by simpa [length_modify_at] using hlen)]
    split
    · exact ⟨h1, h2, h3, h4, h5, by norm_num⟩
    · exact ⟨h1, h2, h3, h4, h5, h6⟩
  · exact ⟨hlen, h1, h2, h3, h4, h5, h6⟩

theorem enemies_phase_preserves_frozen {i : Nat} {e0 : Enemy K} {w : World K}
    (ops : RealOps K) (dt : K) (h : dead_frozen i e0 w) :
    dead_frozen i e0 (enemies_phase ops w dt) := by
  obtain ⟨hlen, h1, h2, h3, h4, h5, h6⟩ := h
  unfold enemies_phase dead_frozen
  refine ⟨by simpa using hlen, ?_⟩
  rw [get_map_eq _ w.enemies i hlen (by simpa using hlen)]
  rw [if_pos h6]
  exact ⟨h1, h2, h3, h4, h5, h6⟩

/-- `world_update` preserves: a dead frozen enemy slot, a zeroed enemy
slot, the absence of a removed enemy body (and such a body never occurs in
the call's collision callbacks), and the no-duplicates property of the
engine's body set. -/
theorem world_update_preserves_inv [FloorRing K] (ops : RealOps K) (w : World K)
    (dt : K) (oracle : Nat → List (BodyRef × BodyRef)) (alloc : Bool)
    (i : Nat) (e0 : Enemy K) :
    (dead_frozen i e0 w → dead_frozen i e0 (world_update ops w dt oracle alloc).world) ∧
    (enemy_zeroed i w → enemy_zeroed i (world_update ops w dt oracle alloc).world) ∧
    (enemy_body_gone i w →
      enemy_body_gone i (world_update ops w dt oracle alloc).world ∧
      ∀ p ∈ (world_update ops w dt oracle alloc).callbacks,
        p.1 ≠ BodyRef.enemy i ∧ p.2 ≠ BodyRef.enemy i) ∧
    (w.sim_bodies.Nodup → (world_update ops w dt oracle alloc).world.sim_bodies.Nodup) := by
  have hext := physics_loop_ext w (w.sim_acc + dt) oracle 0
  obtain ⟨hplayer, hast, hprj, hens, hbodies, hmasks, hacc⟩ := queue_ext_same hext
  obtain ⟨m1, m2, m3, m4, m5, m6, m7, m8, m9⟩ :=
    player_move_phase_fields (events_phase
      { (physics_loop w (w.sim_acc + dt) oracle 0).world with
        sim_acc := (physics_loop w (w.sim_acc + dt) oracle 0).acc }).1 dt
  obtain ⟨s1, s2, s3, s4, s5, s6, s7, s8⟩ :=
    shoot_phase_fields (player_move_phase (events_phase
      { (physics_loop w (w.sim_acc + dt) oracle 0).world with
        sim_acc := (physics_loop w (w.sim_acc + dt) oracle 0).acc }).1 dt) dt alloc
  obtain ⟨p1, p2, p3, p4, p5⟩ := post_phases_fields ops
    (shoot_phase (player_move_phase (events_phase
      { (physics_loop w (w.sim_acc + dt) oracle 0).world with
        sim_acc := (physics_loop w (w.sim_acc + dt) oracle 0).acc }).1 dt) dt alloc).1 dt
  have hw1e : ({ (physics_loop w (w.sim_acc + dt) oracle 0).world with
      sim_acc := (physics_loop w (w.sim_acc + dt) oracle 0).acc } : World K).enemies
      = w.enemies := hens
  have hw1b : ({ (physics_loop w (w.sim_acc + dt) oracle 0).world with
      sim_acc := (physics_loop w (w.sim_acc + dt) oracle 0).acc } : World K).sim_bodies
      = w.sim_bodies := hbodies
  -- effect of the drain on the invariants
  have hfold_frozen : dead_frozen i e0 w →
      dead_frozen i e0 (events_phase
        { (physics_loop w (w.sim_acc + dt) oracle 0).world with
          sim_acc := (physics_loop w (w.sim_acc + dt) oracle 0).acc }).1 := by
    intro h
    exact foldl_inv (dead_frozen i e0) process_event
      (fun a e hh => process_event_preserves_frozen e hh) _ _
      (dead_frozen_congr hw1e h)
  have hfold_zeroed : enemy_zeroed i w →
      enemy_zeroed i (events_phase
        { (physics_loop w (w.sim_acc + dt) oracle 0).world with
          sim_acc := (physics_loop w (w.sim_acc + dt) oracle 0).acc }).1 := by
    intro h
    exact foldl_inv (enemy_zeroed i) process_event
      (fun a e hh => process_event_preserves_zeroed e hh) _ _
      (enemy_zeroed_congr hw1e h)
  have hfold_gone : enemy_body_gone i w →
      enemy_body_gone i (events_phase
        { (physics_loop w (w.sim_acc + dt) oracle 0).world with
          sim_acc := (physics_loop w (w.sim_acc + dt) oracle 0).acc }).1 := by
    intro h
    exact events_fold_preserves_gone (enemy_body_gone_congr hw1b h)
  have hfold_nodup : w.sim_bodies.Nodup →
      (events_phase
        { (physics_loop w (w.sim_acc + dt) oracle 0).world with
          sim_acc := (physics_loop w (w.sim_acc + dt) oracle 0).acc }).1.sim_bodies.Nodup := by
    intro h
    refine events_fold_preserves_nodup ?_
    rw [hw1b]
    exact h
  have hcb : enemy_body_gone i w →
      ∀ p ∈ (physics_loop w (w.sim_acc + dt) oracle 0).callbacks,
        p.1 ≠ BodyRef.enemy i ∧ p.2 ≠ BodyRef.enemy i := by
    intro h p hp
    obtain ⟨hp1, hp2⟩ := physics_loop_callbacks w (w.sim_acc + dt) oracle 0 p hp
    constructor
    · intro hq; rw [hq] at hp1; exact h hp1
    · intro hq; rw [hq] at hp2; exact h hp2
  rw [world_update_cases]
  split
  · refine ⟨?_, ?_, ?_, ?_⟩
    · intro h
      exact dead_frozen_congr (s4.trans m5) (hfold_frozen h)
    · intro h
      exact enemy_zeroed_congr (s4.trans m5) (hfold_zeroed h)
    · intro h
      exact ⟨enemy_body_gone_congr (s5.trans m6) (hfold_gone h), hcb h⟩
    · intro h
      rw [s5, m6]
      exact hfold_nodup h
  · refine ⟨?_, ?_, ?_, ?_⟩
    · intro h
      exact dead_frozen_congr rfl (enemies_phase_preserves_frozen ops dt
        (dead_frozen_congr (s4.trans m5) (hfold_frozen h)))
    · intro h
      exact enemy_zeroed_congr rfl (enemies_phase_preserves_zeroed ops dt
        (enemy_zeroed_congr (s4.trans m5) (hfold_zeroed h)))
    · intro h
      refine ⟨enemy_body_gone_congr ?_ (hfold_gone h), hcb h⟩
      rw [p5, s5, m6]
    · intro h
      rw [p5, s5, m6]
      exact hfold_nodup h

/-- Every `EnemyHit` event processed by a `world_update` call leaves, at the
end of that call, the named enemy with zero hitpoints and its body removed
from the collision engine. -/
theorem world_update_establishes [FloorRing K] (ops : RealOps K) (w : World K)
    (dt : K) (oracle : Nat → List (BodyRef × BodyRef)) (alloc : Bool)
    (hnd : w.sim_bodies.Nodup) :
    ∀ ev ∈ (world_update ops w dt oracle alloc).processed, ev.type = EVENT_ENEMY_HIT →
      enemy_zeroed ev.entity_hnd (world_update ops w dt oracle alloc).world ∧
      enemy_body_gone ev.entity_hnd (world_update ops w dt oracle alloc).world := by
  have hext := physics_loop_ext w (w.sim_acc + dt) oracle 0
  obtain ⟨hplayer, hast, hprj, hens, hbodies, hmasks, hacc⟩ := queue_ext_same hext
  obtain ⟨m1, m2, m3, m4, m5, m6, m7, m8, m9⟩ :=
    player_move_phase_fields (events_phase
      { (physics_loop w (w.sim_acc + dt) oracle 0).world with
        sim_acc := (physics_loop w (w.sim_acc + dt) oracle 0).acc }).1 dt
  obtain ⟨s1, s2, s3, s4, s5, s6, s7, s8⟩ :=
    shoot_phase_fields (player_move_phase (events_phase
      { (physics_loop w (w.sim_acc + dt) oracle 0).world with
        sim_acc := (physics_loop w (w.sim_acc + dt) oracle 0).acc }).1 dt) dt alloc
  obtain ⟨p1, p2, p3, p4, p5⟩ := post_phases_fields ops
    (shoot_phase (player_move_phase (events_phase
      { (physics_loop w (w.sim_acc + dt) oracle 0).world with
        sim_acc := (physics_loop w (w.sim_acc + dt) oracle 0).acc }).1 dt) dt alloc).1 dt
  have hw1nodup : ({ (physics_loop w (w.sim_acc + dt) oracle 0).world with
      sim_acc := (physics_loop w (w.sim_acc + dt) oracle 0).acc } : World K).sim_bodies.Nodup := by
    have hb : ({ (physics_loop w (w.sim_acc + dt) oracle 0).world with
        sim_acc := (physics_loop w (w.sim_acc + dt) oracle 0).acc } : World K).sim_bodies
        = w.sim_bodies := hbodies
    rw [hb]
    exact hnd
  intro ev hmem he
  rw [world_update_cases] at hmem ⊢
  split at hmem
  case isTrue hc =>
    rw [if_pos hc]
    have hz := events_fold_zeroed (w :=
      { (physics_loop w (w.sim_acc + dt) oracle 0).world with
        sim_acc := (physics_loop w (w.sim_acc + dt) oracle 0).acc }) ev hmem he rfl
    have hg := events_fold_gone (w :=
      { (physics_loop w (w.sim_acc + dt) oracle 0).world with
        sim_acc := (physics_loop w (w.sim_acc + dt) oracle 0).acc }) ev hmem he hw1nodup
    exact ⟨enemy_zeroed_congr (s4.trans m5) hz, enemy_body_gone_congr (s5.trans m6) hg⟩
  case isFalse hc =>
    rw [if_neg hc]
    have hz := events_fold_zeroed (w :=
      { (physics_loop w (w.sim_acc + dt) oracle 0).world with
        sim_acc := (physics_loop w (w.sim_acc + dt) oracle 0).acc }) ev hmem he rfl
    have hg := events_fold_gone (w :=
      { (physics_loop w (w.sim_acc + dt) oracle 0).world with
        sim_acc := (physics_loop w (w.sim_acc + dt) oracle 0).acc }) ev hmem he hw1nodup
    refine ⟨enemy_zeroed_congr rfl (enemies_phase_preserves_zeroed ops dt
      (enemy_zeroed_congr (s4.trans m5) hz)), enemy_body_gone_congr ?_
      (enemy_body_gone_congr (s5.trans m6) hg)⟩
    rw [p5]

/-- Over any sequence of further frames, a dead frozen enemy slot stays
frozen and the enemy array never changes size. -/
theorem run_updates_frozen [FloorRing K] (ops : RealOps K) (fs : List (FrameIn K)) :
    ∀ (w : World K) (i : Nat) (e0 : Enemy K), dead_frozen i e0 w →
      dead_frozen i e0 (run_updates ops w fs).1 ∧
      (run_updates ops w fs).1.enemies.length = w.enemies.length := by
  induction fs with
  | nil => intro w i e0 h; exact ⟨h, rfl⟩
  | cons f fs ih =>
    intro w i e0 h
    have hout := (world_update_preserves_inv ops w f.dt f.oracle f.alloc i e0).1 h
    have hlen := (world_update_base ops w f.dt f.oracle f.alloc).2.2.2.2.2.1
    obtain ⟨ih1, ih2⟩ := ih (world_update ops w f.dt f.oracle f.alloc).world i e0 hout
    exact ⟨ih1, ih2.trans hlen⟩

/-- Over any sequence of further frames, a body absent from the engine
never returns and never occurs in any delivered collision callback. -/
theorem run_updates_gone [FloorRing K] (ops : RealOps K) (fs : List (FrameIn K)) :
    ∀ (w : World K) (i : Nat), enemy_body_gone i w →
      enemy_body_gone i (run_updates ops w fs).1 ∧
      ∀ p ∈ (run_updates ops w fs).2.2, p.1 ≠ BodyRef.enemy i ∧ p.2 ≠ BodyRef.enemy i := by
  induction fs with
  | nil =>
    intro w i h
    exact ⟨h, by intro p hp; simp [run_updates] at hp⟩
  | cons f fs ih =>
    intro w i h
    obtain ⟨hgone, hcbs⟩ := (world_update_preserves_inv ops w f.dt f.oracle f.alloc i
      ⟨0, 0, 0, 0, 0, 0, 0, 0, 0, 0⟩).2.2.1 h
    obtain ⟨ih1, ih2⟩ := ih (world_update ops w f.dt f.oracle f.alloc).world i hgone
    refine ⟨ih1, ?_⟩
    intro p hp
    have hp' : p ∈ (world_update ops w f.dt f.oracle f.alloc).callbacks
        ++ (run_updates ops (world_update ops w f.dt f.oracle f.alloc).world fs).2.2 := hp
    rcases List.mem_append.1 hp' with h1 | h2
    · exact hcbs p h1
    · exact ih2 p h2

end InvLemmas

section VecLemmas

variable {K : Type} [LinearOrderedField K]

theorem vec_mag2_nonneg (a : Vec K) : 0 ≤ vec_mag2 a := by
  unfold vec_mag2
  have := mul_self_nonneg a.x
  have := mul_self_nonneg a.y
  have := mul_self_nonneg a.z
  have := mul_self_nonneg a.w
  linarith

theorem vec_mag2_mulf (a : Vec K) (s : K) :
    vec_mag2 (vec_mulf a s) = s * s * vec_mag2 a := by
  unfold vec_mag2 vec_mulf
  ring

/-- Correctness of the magnitude clamp: whenever the supplied square root is
a genuine square root on nonnegative inputs, the clamped vector's squared
magnitude never exceeds `m * m`. -/
theorem vec_clamp_mag2_le (ops : RealOps K)
    (hs : ∀ x : K, 0 ≤ x → ops.sqrt x * ops.sqrt x = x) (a : Vec K) (m : K) :
    vec_mag2 (vec_clamp ops a m) ≤ m * m := by
  unfold vec_clamp
  split
  case isTrue h => exact h
  case isFalse h =>
    have hgt : m * m < vec_mag2 a := lt_of_not_le h
    have h0 : 0 < vec_mag2 a := lt_of_le_of_lt (mul_self_nonneg m) hgt
    have hsq : ops.sqrt (vec_mag2 a) * ops.sqrt (vec_mag2 a) = vec_mag2 a := hs _ h0.le
    rw [vec_mag2_mulf]
    unfold vec_mag
    have hcalc : m / ops.sqrt (vec_mag2 a) * (m / ops.sqrt (vec_mag2 a)) * vec_mag2 a
        = m * m * (vec_mag2 a / (ops.sqrt (vec_mag2 a) * ops.sqrt (vec_mag2 a))) := by
      ring
    rw [hcalc, hsq, div_self h0.ne']
    rw [mul_one]

end VecLemmas

/-! ## Shared concrete evaluations -/

theorem oneEnemyWorld_facts :
    oneEnemyWorld.sim_acc = 0 ∧ oneEnemyWorld.event_queue = [] ∧
    oneEnemyWorld.player.hitpoints = 100 ∧
    oneEnemyWorld.sim_bodies = [BodyRef.player, BodyRef.enemy 0] := by
  refine ⟨?_, ?_, ?_, ?_⟩ <;>
    norm_num [oneEnemyWorld, world_add_enemy, world_new_state,
      PLAYER_INITIAL_HITPOINTS]

/-- With `dt` equal to one simulation step, the physics phase of an update
of `oneEnemyWorld` runs exactly one step; the reported player-enemy overlap
is delivered and the collision handler enqueues a single EnemyHit event for
slot 0. -/
theorem physics_eval_hit :
    physics_loop oneEnemyWorld (oneEnemyWorld.sim_acc + 1 / 15) hitOracle 0
      = ⟨{ oneEnemyWorld with event_queue := [⟨EVENT_ENEMY_HIT, 0⟩] }, 0, 1,
         [(BodyRef.player, BodyRef.enemy 0)]⟩ := by
  have hacc : oneEnemyWorld.sim_acc = 0 := oneEnemyWorld_facts.1
  rw [hacc]
  rw [physics_loop_step _ _ _ _ (by norm_num [SIMULATION_STEP])]
  rw [physics_loop_stop _ _ _ _ (by norm_num [SIMULATION_STEP])]
  have hmask : ¬((1 ||| 2 : Nat) = 1 ||| 4) := by decide
  norm_num [sim_step, deliver_handlers, handle_player_collision, add_event,
    sim_body_view, oneEnemyWorld, world_add_enemy, world_new_state, hitOracle,
    BODY_TYPE_PLAYER, BODY_TYPE_ENEMY, BODY_TYPE_ASTEROID, EVENT_ENEMY_HIT,
    EVENT_ASTEROID_HIT, SIMULATION_STEP, hmask]

theorem oneEnemy_processed_eval :
    (world_update opsQ oneEnemyWorld (1 / 15) hitOracle true).processed
      = [⟨EVENT_ENEMY_HIT, 0⟩] := by
  have h := (world_update_base opsQ oneEnemyWorld (1 / 15) hitOracle true).2.2.2.2.1
  rw [h, physics_eval_hit]

/-! ## Claims -/

/-- C1, counterexample: starting from an empty event queue, one
`world_update` call whose single physics step reports a player-enemy overlap
both produces an EnemyHit event (the call's processed-event list is
nonempty) and consumes it before returning: the player's hitpoints have
already dropped from 100 to 50 when this same call returns, and the queue is
empty again.  This contradicts the claim that the queue is drained before
any physics step and that an event produced by a callback is consumed only
at the start of the next call. -/
theorem C1_counterexample_same_call_consumption :
    oneEnemyWorld.event_queue = [] ∧
    (world_update opsQ oneEnemyWorld (1 / 15) hitOracle true).processed
      = [⟨EVENT_ENEMY_HIT, 0⟩] ∧
    oneEnemyWorld.player.hitpoints = 100 ∧
    (world_update opsQ oneEnemyWorld (1 / 15) hitOracle true).world.player.hitpoints = 50 ∧
    (world_update opsQ oneEnemyWorld (1 / 15) hitOracle true).world.event_queue = [] := by
  obtain ⟨b1, _, _, _, _, _, b7⟩ :=
    world_update_base opsQ oneEnemyWorld (1 / 15) hitOracle true
  refine ⟨oneEnemyWorld_facts.2.1, oneEnemy_processed_eval, oneEnemyWorld_facts.2.2.1, ?_, b1⟩
  rw [b7, physics_eval_hit, oneEnemyWorld_facts.2.2.1]
  norm_num [EVENT_ENEMY_HIT, ENEMY_COLLISION_DAMAGE]

/-- C1, amended: the event queue is drained once per `world_update` call,
immediately after the call's physics steps and before the movement blocks:
the processed list is exactly the queue as it stands after the steps — the
events pending at entry followed, in production order, by the events this
call's collision callbacks produced — and the queue is empty when the call
returns, so an event produced by a callback is consumed later in the same
call, never carried into a later call. -/
theorem C1_amended_drain_follows_steps {K : Type} [LinearOrderedField K] [FloorRing K]
    (ops : RealOps K) (w : World K) (dt : K)
    (oracle : Nat → List (BodyRef × BodyRef)) (alloc : Bool) :
    (world_update ops w dt oracle alloc).processed
        = (physics_loop w (w.sim_acc + dt) oracle 0).world.event_queue ∧
    (∃ produced : List Event,
      (world_update ops w dt oracle alloc).processed = w.event_queue ++ produced) ∧
    (world_update ops w dt oracle alloc).world.event_queue = [] := by
  obtain ⟨b1, _, _, _, b5, _, _⟩ := world_update_base ops w dt oracle alloc
  obtain ⟨es, hes⟩ := queue_ext_queue (physics_loop_ext w (w.sim_acc + dt) oracle 0)
  exact ⟨b5, ⟨es, by rw [b5, hes]⟩, b1⟩

/-- C2: `world_update` keeps a persistent accumulator: over any sequence of
calls with nonnegative `dt` starting from a zero accumulator, the total
number of fixed physics steps is exactly `⌊total elapsed / step⌋`, the
leftover accumulator is the carried remainder `total - steps·step` (nothing
is ever discarded), and after every call of the sequence the accumulator
lies in `[0, step)`. -/
theorem C2_fixed_timestep_accumulator {K : Type} [LinearOrderedField K] [FloorRing K]
    (ops : RealOps K) (w : World K) (fs : List (FrameIn K))
    (hw : w.sim_acc = 0) (hdt : ∀ f ∈ fs, 0 ≤ f.dt) :
    ((run_updates ops w fs).2.1 : ℤ)
        = ⌊(fs.map FrameIn.dt).sum / SIMULATION_STEP K⌋ ∧
    (run_updates ops w fs).1.sim_acc
        = (fs.map FrameIn.dt).sum
          - ((run_updates ops w fs).2.1 : K) * SIMULATION_STEP K ∧
    ∀ n : Nat, 0 ≤ (run_updates ops w (fs.take n)).1.sim_acc ∧
      (run_updates ops w (fs.take n)).1.sim_acc < SIMULATION_STEP K := by
  obtain ⟨h1, h2, h3⟩ := run_updates_acc ops fs w (by rw [hw])
    (by rw [hw]; exact SIMULATION_STEP_pos) hdt
  rw [hw, zero_add] at h1
  refine ⟨?_, h1, ?_⟩
  · rw [h1] at h2 h3
    exact (steps_eq_floor SIMULATION_STEP_pos h2 h3).symm
  · intro n
    obtain ⟨_, g2, g3⟩ := run_updates_acc ops (fs.take n) w (by rw [hw])
      (by rw [hw]; exact SIMULATION_STEP_pos)
      (fun f hf => hdt f (List.take_subset n fs hf))
    exact ⟨g2, g3⟩

/-- C2, witness: two frames of 1/10 s each (no collisions) run 3 physics
steps in total — `⌊(1/5)/(1/15)⌋ = 3` — with zero leftover. -/
theorem C2_witness :
    ((run_updates opsQ (world_new_state ℚ)
        [⟨1 / 10, emptyOracle, true⟩, ⟨1 / 10, emptyOracle, true⟩]).2.1 : ℤ)
      = ⌊(([⟨1 / 10, emptyOracle, true⟩,
            ⟨1 / 10, emptyOracle, true⟩] : List (FrameIn ℚ)).map FrameIn.dt).sum
          / SIMULATION_STEP ℚ⌋ ∧
    (run_updates opsQ (world_new_state ℚ)
        [⟨1 / 10, emptyOracle, true⟩, ⟨1 / 10, emptyOracle, true⟩]).1.sim_acc
      = (([⟨1 / 10, emptyOracle, true⟩,
            ⟨1 / 10, emptyOracle, true⟩] : List (FrameIn ℚ)).map FrameIn.dt).sum
        - ((run_updates opsQ (world_new_state ℚ)
            [⟨1 / 10, emptyOracle, true⟩, ⟨1 / 10, emptyOracle, true⟩]).2.1 : ℚ)
          * SIMULATION_STEP ℚ := by
  have h := C2_fixed_timestep_accumulator opsQ (world_new_state ℚ)
    [⟨1 / 10, emptyOracle, true⟩, ⟨1 / 10, emptyOracle, true⟩]
    rfl
    (by
      intro f hf
      rcases List.mem_cons.1 hf with rfl | hf
      · norm_num
      · rcases List.mem_cons.1 hf with rfl | hf
        · norm_num
        · simp at hf)
  exact ⟨h.1, h.2.1⟩

/-- C3: after every `world_update` the queue's live count is 0; the player
loses exactly the enemy-collision damage constant (50) once per processed
EnemyHit event; and each processed EnemyHit for slot `i` leaves enemy `i`
with zero hitpoints and its body removed from the collision engine, from
where it never returns and never occurs in any future call's collision
callbacks. -/
theorem C3_enemy_hit_effects {K : Type} [LinearOrderedField K] [FloorRing K]
    (ops : RealOps K) (w : World K) (dt : K)
    (oracle : Nat → List (BodyRef × BodyRef)) (alloc : Bool)
    (hnd : w.sim_bodies.Nodup) :
    ENEMY_COLLISION_DAMAGE K = 50 ∧
    (world_update ops w dt oracle alloc).world.event_queue = [] ∧
    (world_update ops w dt oracle alloc).world.player.hitpoints
        = w.player.hitpoints - ENEMY_COLLISION_DAMAGE K
          * (((world_update ops w dt oracle alloc).processed.filter
                fun e => e.type = EVENT_ENEMY_HIT).length : K) ∧
    ∀ ev ∈ (world_update ops w dt oracle alloc).processed,
      ev.type = EVENT_ENEMY_HIT →
        enemy_zeroed ev.entity_hnd (world_update ops w dt oracle alloc).world ∧
        enemy_body_gone ev.entity_hnd (world_update ops w dt oracle alloc).world ∧
        ∀ fs : List (FrameIn K),
          enemy_body_gone ev.entity_hnd
            (run_updates ops (world_update ops w dt oracle alloc).world fs).1 ∧
          ∀ p ∈ (run_updates ops (world_update ops w dt oracle alloc).world fs).2.2,
            p.1 ≠ BodyRef.enemy ev.entity_hnd ∧ p.2 ≠ BodyRef.enemy ev.entity_hnd := by
  obtain ⟨b1, _, _, _, b5, _, b7⟩ := world_update_base ops w dt oracle alloc
  refine ⟨rfl, b1, by rw [b7, b5], ?_⟩
  intro ev hmem he
  obtain ⟨hz, hg⟩ := world_update_establishes ops w dt oracle alloc hnd ev hmem he
  refine ⟨hz, hg, ?_⟩
  intro fs
  exact run_updates_gone ops fs (world_update ops w dt oracle alloc).world ev.entity_hnd hg

/-- C3, witness: on `oneEnemyWorld` with a reported player-enemy overlap,
the one processed EnemyHit leaves the queue empty, enemy 0 zeroed, its body
removed, and absent from the callbacks of a further frame. -/
theorem C3_witness :
    oneEnemyWorld.sim_bodies.Nodup ∧
    (world_update opsQ oneEnemyWorld (1 / 15) hitOracle true).world.event_queue = [] ∧
    enemy_zeroed 0 (world_update opsQ oneEnemyWorld (1 / 15) hitOracle true).world ∧
    enemy_body_gone 0 (world_update opsQ oneEnemyWorld (1 / 15) hitOracle true).world ∧
    ∀ p ∈ (run_updates opsQ
        (world_update opsQ oneEnemyWorld (1 / 15) hitOracle true).world
        [⟨1 / 15, hitOracle, true⟩]).2.2,
      p.1 ≠ BodyRef.enemy 0 ∧ p.2 ≠ BodyRef.enemy 0 := by
  have hnd : oneEnemyWorld.sim_bodies.Nodup := by
    rw [oneEnemyWorld_facts.2.2.2]
    simp
  have h := C3_enemy_hit_effects opsQ oneEnemyWorld (1 / 15) hitOracle true hnd
  have hev := h.2.2.2 ⟨EVENT_ENEMY_HIT, 0⟩ (by rw [oneEnemy_processed_eval]; simp) rfl
  exact ⟨hnd, h.2.1, hev.1, hev.2.1, (hev.2.2 [⟨1 / 15, hitOracle, true⟩]).2⟩

/-- C10: `handle_player_collision` returns the continue flag 1 for every
pair of bodies; it either leaves the world unchanged or appends exactly one
event, and it appends only when the first body is tagged Player and the
second Enemy or Asteroid. -/
theorem C10_handler_contract {K : Type} [LinearOrderedField K]
    (a b : SimBody) (w : World K) :
    (handle_player_collision a b w).2 = 1 ∧
    ((handle_player_collision a b w).1 = w ∨
      ∃ evt : Event, (handle_player_collision a b w).1 = add_event w evt ∧
        a.type = BODY_TYPE_PLAYER ∧
        (b.type = BODY_TYPE_ENEMY ∨ b.type = BODY_TYPE_ASTEROID)) := by
  unfold handle_player_collision
  split
  · exact ⟨rfl, Or.inl rfl⟩
  case isFalse h =>
    have ha : a.type = BODY_TYPE_PLAYER := not_ne_iff.1 h
    dsimp only
    by_cases hb1 : b.type = BODY_TYPE_ENEMY
    · rw [if_pos hb1, if_pos (by norm_num [EVENT_ENEMY_HIT] : (⟨EVENT_ENEMY_HIT, b.id⟩ : Event).type ≠ 0)]
      exact ⟨rfl, Or.inr ⟨⟨EVENT_ENEMY_HIT, b.id⟩, rfl, ha, Or.inl hb1⟩⟩
    · rw [if_neg hb1]
      by_cases hb2 : b.type = BODY_TYPE_ASTEROID
      · rw [if_pos hb2, if_pos (by norm_num [EVENT_ASTEROID_HIT] : (⟨EVENT_ASTEROID_HIT, b.id⟩ : Event).type ≠ 0)]
        exact ⟨rfl, Or.inr ⟨⟨EVENT_ASTEROID_HIT, b.id⟩, rfl, ha, Or.inr hb2⟩⟩
      · rw [if_neg hb2, if_neg (by norm_num : ¬ (⟨0, 0⟩ : Event).type ≠ 0)]
        exact ⟨rfl, Or.inl rfl⟩

/-- C5: the claim matches the code's clear intent (every other failure path
unwinds through `world_destroy(w)`), but the container-allocation failure
path (game.c:77) calls `world_destroy(NULL)`, which releases nothing: when
the projectile-list allocation fails after the World record and the asteroid
list were allocated, `world_new` returns NULL having freed neither of them. -/
theorem C5_world_new_container_failure_leaks :
    (world_new_model ⟨true, true, false, true, true, true, true, true⟩).1 = none ∧
    (world_new_model ⟨true, true, false, true, true, true, true, true⟩).2.allocated
      = [Res.worldRec, Res.astList] ∧
    (world_new_model ⟨true, true, false, true, true, true, true, true⟩).2.freed = [] ∧
    (world_new_model ⟨true, true, true, false, true, true, true, true⟩).1 = none ∧
    (world_new_model ⟨true, true, true, false, true, true, true, true⟩).2.allocated
      = [Res.worldRec, Res.astList, Res.prjList] ∧
    (world_new_model ⟨true, true, true, false, true, true, true, true⟩).2.freed
      = [Res.astList, Res.prjList, Res.worldRec] := by
  decide

/-- Results of calling `world_add_enemy` once per record of `es` on a world
whose occupied slots all hold the initial hitpoints: while slots remain, the
calls return the consecutive slot indices; the call that meets the full
array returns -1; and every stored enemy holds the initial hitpoints. -/
theorem add_enemy_run_spec {K : Type} [LinearOrderedField K] (M : Nat)
    (es : List (Enemy K)) :
    ∀ w : World K, w.enemies.length + es.length = M + 1 → w.enemies.length ≤ M →
      (∀ e ∈ w.enemies, Enemy.hitpoints e = ENEMY_INITIAL_HITPOINTS K) →
      (add_enemy_run M w es).2
          = ((List.range' w.enemies.length (M - w.enemies.length)).map Int.ofNat)
            ++ [-1] ∧
      ∀ e ∈ (add_enemy_run M w es).1.enemies,
        Enemy.hitpoints e = ENEMY_INITIAL_HITPOINTS K := by
  induction es with
  | nil =>
    intro w hlen hle _
    exfalso
    simp at hlen
    omega
  | cons e rest ih =>
    intro w hlen hle hhp
    by_cases hc : w.enemies.length < M
    · have hrun : add_enemy_run M w (e :: rest)
          = ((add_enemy_run M { w with
                enemies := w.enemies ++ [{ e with
                  hitpoints := ENEMY_INITIAL_HITPOINTS K, id := w.enemies.length,
                  bodyx := e.x, bodyy := e.y }],
                sim_bodies := w.sim_bodies ++ [BodyRef.enemy w.enemies.length] } rest).1,
             Int.ofNat w.enemies.length
               :: (add_enemy_run M { w with
                    enemies := w.enemies ++ [{ e with
                      hitpoints := ENEMY_INITIAL_HITPOINTS K, id := w.enemies.length,
                      bodyx := e.x, bodyy := e.y }],
                    sim_bodies := w.sim_bodies ++ [BodyRef.enemy w.enemies.length] } rest).2) := by
        simp [add_enemy_run, world_add_enemy, if_pos hc]
      have hlen' : ({ w with
          enemies := w.enemies ++ [{ e with
            hitpoints := ENEMY_INITIAL_HITPOINTS K, id := w.enemies.length,
            bodyx := e.x, bodyy := e.y }],
          sim_bodies := w.sim_bodies ++ [BodyRef.enemy w.enemies.length] } : World K).enemies.length
          = w.enemies.length + 1 := by
        simp
      obtain ⟨ihr, ihhp⟩ := ih _ (by rw [hlen']; simp at hlen; omega)
        (by rw [hlen']; simp at hlen; omega)
        (by
          intro x hx
          rcases List.mem_append.1 hx with hx | hx
          · exact hhp x hx
          · have hx' : x = { e with
                hitpoints := ENEMY_INITIAL_HITPOINTS K, id := w.enemies.length,
                bodyx := e.x, bodyy := e.y } := by simpa using hx
            rw [hx'])
      rw [hrun]
      refine ⟨?_, ihhp⟩
      rw [ihr, hlen']
      have hsplit : M - w.enemies.length = (M - (w.enemies.length + 1)) + 1 := by omega
      rw [hsplit, List.range'_succ]
      simp
    · have hc' : w.enemies.length = M := by omega
      have hrest : rest = [] := by
        have : rest.length = 0 := by simp at hlen; omega
        exact List.eq_nil_of_length_eq_zero this
      subst hrest
      have hrun : add_enemy_run M w [e] = (w, [-1]) := by
        simp [add_enemy_run, world_add_enemy, if_neg hc]
      rw [hrun]
      refine ⟨?_, hhp⟩
      rw [hc']
      simp

/-- C8: calling `world_add_enemy` capacity+1 times on a fresh world (body
registration succeeding) succeeds for the first `capacity` calls — each
returning the new slot's index as the handle and resetting that slot's
hitpoints to the initial value — and returns -1 for the final call once the
fixed capacity is reached. -/
theorem C8_add_enemy_capacity {K : Type} [LinearOrderedField K] (M : Nat)
    (es : List (Enemy K)) (hlen : es.length = M + 1) :
    (add_enemy_run M (world_new_state K) es).2
        = ((List.range M).map Int.ofNat) ++ [-1] ∧
    ∀ e ∈ (add_enemy_run M (world_new_state K) es).1.enemies,
      Enemy.hitpoints e = ENEMY_INITIAL_HITPOINTS K := by
  obtain ⟨h1, h2⟩ := add_enemy_run_spec M es (world_new_state K)
    (by simp [world_new_state, hlen]) (by simp [world_new_state])
    (by simp [world_new_state])
  refine ⟨?_, h2⟩
  rw [h1]
  simp [world_new_state, List.range_eq_range']

/-- C8, witness: with capacity 2, three `add_enemy` calls on a fresh world
return 0, 1 and -1, and both stored enemies hold the initial hitpoints. -/
theorem C8_witness :
    (add_enemy_run 2 (world_new_state ℚ)
        [⟨1, 2, 0, 0, 0, 0, 7, 0, 0, 0⟩, ⟨3, 4, 0, 0, 0, 0, 7, 0, 0, 0⟩,
         ⟨5, 6, 0, 0, 0, 0, 7, 0, 0, 0⟩]).2
      = [0, 1, -1] ∧
    ∀ e ∈ (add_enemy_run 2 (world_new_state ℚ)
        [⟨1, 2, 0, 0, 0, 0, 7, 0, 0, 0⟩, ⟨3, 4, 0, 0, 0, 0, 7, 0, 0, 0⟩,
         ⟨5, 6, 0, 0, 0, 0, 7, 0, 0, 0⟩]).1.enemies,
      Enemy.hitpoints e = ENEMY_INITIAL_HITPOINTS ℚ := by
  obtain ⟨h1, h2⟩ := C8_add_enemy_capacity 2
    ([⟨1, 2, 0, 0, 0, 0, 7, 0, 0, 0⟩, ⟨3, 4, 0, 0, 0, 0, 7, 0, 0, 0⟩,
      ⟨5, 6, 0, 0, 0, 0, 7, 0, 0, 0⟩] : List (Enemy ℚ)) rfl
  refine ⟨?_, h2⟩
  rw [h1]
  decide

/-- C7: an enemy whose hitpoints are ≤ 0 keeps its position, velocity and
rotation unchanged across any number of subsequent `world_update` calls,
stays dead, and its slot is never removed from the array (the array length
never changes and the index stays in range). -/
theorem C7_dead_enemy_frozen {K : Type} [LinearOrderedField K] [FloorRing K]
    (ops : RealOps K) (w : World K) (fs : List (FrameIn K)) (i : Nat)
    (hi : i < w.enemies.length)
    (hdead : (w.enemies.get ⟨i, hi⟩).hitpoints ≤ 0) :
    (run_updates ops w fs).1.enemies.length = w.enemies.length ∧
    ∃ hi' : i < (run_updates ops w fs).1.enemies.length,
      ((run_updates ops w fs).1.enemies.get ⟨i, hi'⟩).x = (w.enemies.get ⟨i, hi⟩).x ∧
      ((run_updates ops w fs).1.enemies.get ⟨i, hi'⟩).y = (w.enemies.get ⟨i, hi⟩).y ∧
      ((run_updates ops w fs).1.enemies.get ⟨i, hi'⟩).xvel = (w.enemies.get ⟨i, hi⟩).xvel ∧
      ((run_updates ops w fs).1.enemies.get ⟨i, hi'⟩).yvel = (w.enemies.get ⟨i, hi⟩).yvel ∧
      ((run_updates ops w fs).1.enemies.get ⟨i, hi'⟩).rot = (w.enemies.get ⟨i, hi⟩).rot ∧
      ((run_updates ops w fs).1.enemies.get ⟨i, hi'⟩).hitpoints ≤ 0 := by
  obtain ⟨⟨hi', h1, h2, h3, h4, h5, h6⟩, hlen⟩ :=
    run_updates_frozen ops fs w i (w.enemies.get ⟨i, hi⟩)
      ⟨hi, rfl, rfl, rfl, rfl, rfl, hdead⟩
  exact ⟨hlen, hi', h1, h2, h3, h4, h5, h6⟩

theorem deadEnemyWorld_enemies :
    deadEnemyWorld.enemies = [⟨0, 0, 0, 0, 0, 0, 50, 0, 0, 0⟩] := by
  norm_num [deadEnemyWorld, process_event, oneEnemyWorld, world_add_enemy,
    world_new_state, modify_at, EVENT_ENEMY_HIT, ENEMY_INITIAL_HITPOINTS]

/-- C7, witness: the dead enemy of `deadEnemyWorld` is still in slot 0 with
its original position, velocity and rotation after two further frames (one
of which reports a — now impossible — overlap and one of which fails a
projectile allocation). -/
theorem C7_witness :
    (run_updates opsQ deadEnemyWorld
        [⟨1 / 15, hitOracle, true⟩, ⟨1 / 30, emptyOracle, false⟩]).1.enemies.length
      = deadEnemyWorld.enemies.length ∧
    ∃ hi' : 0 < (run_updates opsQ deadEnemyWorld
        [⟨1 / 15, hitOracle, true⟩, ⟨1 / 30, emptyOracle, false⟩]).1.enemies.length,
      ((run_updates opsQ deadEnemyWorld
          [⟨1 / 15, hitOracle, true⟩, ⟨1 / 30, emptyOracle, false⟩]).1.enemies.get
        ⟨0, hi'⟩).x = 0 ∧
      ((run_updates opsQ deadEnemyWorld
          [⟨1 / 15, hitOracle, true⟩, ⟨1 / 30, emptyOracle, false⟩]).1.enemies.get
        ⟨0, hi'⟩).y = 0 ∧
      ((run_updates opsQ deadEnemyWorld
          [⟨1 / 15, hitOracle, true⟩, ⟨1 / 30, emptyOracle, false⟩]).1.enemies.get
        ⟨0, hi'⟩).xvel = 0 ∧
      ((run_updates opsQ deadEnemyWorld
          [⟨1 / 15, hitOracle, true⟩, ⟨1 / 30, emptyOracle, false⟩]).1.enemies.get
        ⟨0, hi'⟩).yvel = 0 ∧
      ((run_updates opsQ deadEnemyWorld
          [⟨1 / 15, hitOracle, true⟩, ⟨1 / 30, emptyOracle, false⟩]).1.enemies.get
        ⟨0, hi'⟩).rot = 0 ∧
      ((run_updates opsQ deadEnemyWorld
          [⟨1 / 15, hitOracle, true⟩, ⟨1 / 30, emptyOracle, false⟩]).1.enemies.get
        ⟨0, hi'⟩).hitpoints ≤ 0 := by
  have h0 : 0 < deadEnemyWorld.enemies.length := by
    rw [deadEnemyWorld_enemies]
    simp
  have hd : (deadEnemyWorld.enemies.get ⟨0, h0⟩).hitpoints ≤ 0 := by
    simp [deadEnemyWorld_enemies]
  obtain ⟨hlen, hi', h1, h2, h3, h4, h5, h6⟩ := C7_dead_enemy_frozen opsQ deadEnemyWorld
    [⟨1 / 15, hitOracle, true⟩, ⟨1 / 30, emptyOracle, false⟩] 0 h0 hd
  refine ⟨hlen, hi', ?_, ?_, ?_, ?_, ?_, h6⟩
  · rw [h1]; simp [deadEnemyWorld_enemies]
  · rw [h2]; simp [deadEnemyWorld_enemies]
  · rw [h3]; simp [deadEnemyWorld_enemies]
  · rw [h4]; simp [deadEnemyWorld_enemies]
  · rw [h5]; simp [deadEnemyWorld_enemies]

/-- When the shoot action is held, the cooldown has expired and the
projectile allocation fails, the shoot block leaves the world with only the
cooldown reset and signals the failure return. -/
theorem shoot_phase_fail {K : Type} [LinearOrderedField K] (w : World K) (dt : K)
    (hshoot : w.player.actions &&& ACTION_SHOOT ≠ 0)
    (hcd : w.player.shoot_cooldown - dt ≤ 0) :
    shoot_phase w dt false
      = ({ w with player.shoot_cooldown := 1 / PLAYER_ACTION_SHOOT_RATE K }, false) := by
  unfold shoot_phase
  rw [if_pos ⟨hshoot, hcd⟩]
  rfl

/-- With a successful allocation the shoot block never aborts the frame. -/
theorem shoot_phase_true {K : Type} [LinearOrderedField K] (w : World K) (dt : K) :
    (shoot_phase w dt true).2 = true := by
  unfold shoot_phase
  dsimp only
  split_ifs with h1 h2
  · rfl
  · exact absurd rfl h2
  · rfl

theorem physics_eval_idle (w : World ℚ) (hacc : w.sim_acc = 0) :
    physics_loop w (w.sim_acc + 1 / 30) emptyOracle 0 = ⟨w, 1 / 30, 0, []⟩ := by
  rw [hacc]
  rw [physics_loop_stop _ _ _ _ (by norm_num [SIMULATION_STEP])]
  norm_num

theorem shootingWorld_facts :
    shootingWorld.sim_acc = 0 ∧ shootingWorld.player.actions = ACTION_SHOOT ∧
    shootingWorld.player.shoot_cooldown = 0 := by
  refine ⟨?_, ?_, ?_⟩ <;>
    norm_num [shootingWorld, world_add_enemy, world_new_state]

/-- C4, amended: if the projectile allocation fails while the player is
shooting, `world_update` reports the failure by returning 0 and aborts the
rest of the frame: the enemy list is left exactly as the event drain left it
(no steering), the asteroid and projectile lists are untouched, and only the
shoot cooldown was reset. -/
theorem C4_amended_alloc_failure_aborts_frame {K : Type} [LinearOrderedField K]
    [FloorRing K] (ops : RealOps K) (w : World K) (dt : K)
    (oracle : Nat → List (BodyRef × BodyRef))
    (hshoot : w.player.actions &&& ACTION_SHOOT ≠ 0)
    (hcd : w.player.shoot_cooldown - dt ≤ 0) :
    (world_update ops w dt oracle false).ret = 0 ∧
    (world_update ops w dt oracle false).world.projectile_list = w.projectile_list ∧
    (world_update ops w dt oracle false).world.asteroid_list = w.asteroid_list ∧
    (world_update ops w dt oracle false).world.enemies
        = (events_phase { (physics_loop w (w.sim_acc + dt) oracle 0).world with
            sim_acc := (physics_loop w (w.sim_acc + dt) oracle 0).acc }).1.enemies ∧
    (world_update ops w dt oracle false).world.player.shoot_cooldown
        = 1 / PLAYER_ACTION_SHOOT_RATE K := by
  have hext := physics_loop_ext w (w.sim_acc + dt) oracle 0
  obtain ⟨hplayer, hast, hprj, hens, hbodies, hmasks, hacc⟩ := queue_ext_same hext
  obtain ⟨f1, f2, f3, f4, f5, f6, f7, f8, f9, f10, f11⟩ :=
    events_fold_fields
      ({ (physics_loop w (w.sim_acc + dt) oracle 0).world with
        sim_acc := (physics_loop w (w.sim_acc + dt) oracle 0).acc } : World K)
      ({ (physics_loop w (w.sim_acc + dt) oracle 0).world with
        sim_acc := (physics_loop w (w.sim_acc + dt) oracle 0).acc } : World K).event_queue
  obtain ⟨m1, m2, m3, m4, m5, m6, m7, m8, m9⟩ :=
    player_move_phase_fields (events_phase
      { (physics_loop w (w.sim_acc + dt) oracle 0).world with
        sim_acc := (physics_loop w (w.sim_acc + dt) oracle 0).acc }).1 dt
  have hact : (player_move_phase (events_phase
      { (physics_loop w (w.sim_acc + dt) oracle 0).world with
        sim_acc := (physics_loop w (w.sim_acc + dt) oracle 0).acc }).1 dt).player.actions
      = w.player.actions := by
    rw [m8]
    show (List.foldl process_event _ _).player.actions = _
    rw [f9]
    exact congrArg Player.actions hplayer
  have hcool : (player_move_phase (events_phase
      { (physics_loop w (w.sim_acc + dt) oracle 0).world with
        sim_acc := (physics_loop w (w.sim_acc + dt) oracle 0).acc }).1 dt).player.shoot_cooldown
      = w.player.shoot_cooldown := by
    rw [m9]
    show (List.foldl process_event _ _).player.shoot_cooldown = _
    rw [f11]
    exact congrArg Player.shoot_cooldown hplayer
  have hfail := shoot_phase_fail (player_move_phase (events_phase
      { (physics_loop w (w.sim_acc + dt) oracle 0).world with
        sim_acc := (physics_loop w (w.sim_acc + dt) oracle 0).acc }).1 dt) dt
    (by rw [hact]; exact hshoot) (by rw [hcool]; exact hcd)
  rw [world_update_cases]
  rw [if_pos (by rw [hfail])]
  have e1 : (shoot_phase (player_move_phase (events_phase
      { (physics_loop w (w.sim_acc + dt) oracle 0).world with
        sim_acc := (physics_loop w (w.sim_acc + dt) oracle 0).acc }).1 dt) dt false).1
      = { (player_move_phase (events_phase
          { (physics_loop w (w.sim_acc + dt) oracle 0).world with
            sim_acc := (physics_loop w (w.sim_acc + dt) oracle 0).acc }).1 dt) with
          player.shoot_cooldown := 1 / PLAYER_ACTION_SHOOT_RATE K } := by rw [hfail]
  refine ⟨rfl, ?_, ?_, ?_, ?_⟩
  · exact (congrArg World.projectile_list e1).trans (m4.trans ((by
      show (List.foldl process_event _ _).projectile_list = _
      rw [f4]
      exact hprj : (events_phase
        { (physics_loop w (w.sim_acc + dt) oracle 0).world with
          sim_acc := (physics_loop w (w.sim_acc + dt) oracle 0).acc }).1.projectile_list
        = w.projectile_list)))
  · exact (congrArg World.asteroid_list e1).trans (m3.trans ((by
      show (List.foldl process_event _ _).asteroid_list = _
      rw [f3]
      exact hast : (events_phase
        { (physics_loop w (w.sim_acc + dt) oracle 0).world with
          sim_acc := (physics_loop w (w.sim_acc + dt) oracle 0).acc }).1.asteroid_list
        = w.asteroid_list)))
  · exact (congrArg World.enemies e1).trans m5
  · exact congrArg (fun v : World K => v.player.shoot_cooldown) e1

/-- C4, counterexample: with the shoot action held and an expired cooldown,
a call whose projectile allocation fails returns 0 and performs no enemy
steering — the (alive) enemy's velocity and position are unchanged — while
the same call with a successful allocation steers the enemy (its vertical
velocity becomes 1/2 and its position moves).  The failing frame is aborted,
not completed with one fewer projectile. -/
theorem C4_counterexample_frame_not_completed :
    (world_update opsQ shootingWorld (1 / 30) emptyOracle false).ret = 0 ∧
    (world_update opsQ shootingWorld (1 / 30) emptyOracle false).world.enemies.map
        Enemy.yvel = [0] ∧
    (world_update opsQ shootingWorld (1 / 30) emptyOracle false).world.enemies.map
        Enemy.y = [0] ∧
    (world_update opsQ shootingWorld (1 / 30) emptyOracle false).world.projectile_list = [] ∧
    (world_update opsQ shootingWorld (1 / 30) emptyOracle true).ret = 1 ∧
    (world_update opsQ shootingWorld (1 / 30) emptyOracle true).world.enemies.map
        Enemy.yvel = [1 / 2] ∧
    (world_update opsQ shootingWorld (1 / 30) emptyOracle true).world.enemies.map
        Enemy.y = [1 / 60] ∧
    (world_update opsQ shootingWorld (1 / 30) emptyOracle true).world.projectile_list.length
      = 1 := by
  have h1 : (4 &&& 1 : Nat) = 0 := by decide
  have h2 : (4 &&& 2 : Nat) = 0 := by decide
  have h3 : (4 &&& 4 : Nat) = 4 := by decide
  rw [world_update_cases, world_update_cases,
    physics_eval_idle shootingWorld shootingWorld_facts.1]
  norm_num [events_phase, process_event, player_move_phase, shoot_phase,
    enemies_phase, asteroids_phase, projectiles_phase, enemy_steer, vec_norm,
    vec_clamp, vec_mag, vec_mag2, vec_mulf, vec_add, vec_sub, vec, opsQ,
    shootingWorld, world_add_enemy, world_new_state, ACTION_SHOOT,
    ACTION_MOVE_LEFT, ACTION_MOVE_RIGHT, h1, h2, h3, ENEMY_INITIAL_HITPOINTS,
    PLAYER_ACTION_SHOOT_RATE, PLAYER_INITIAL_SPEED, PLAYER_INITIAL_HITPOINTS,
    PLAYER_PROJECTILE_INITIAL_SPEED, PLAYER_PROJECTILE_TTL, SCREEN_HEIGHT]

/-- C4, witness for the amended theorem: the concrete failing frame of the
counterexample world returns 0 with untouched projectile and asteroid
lists. -/
theorem C4_witness :
    (world_update opsQ shootingWorld (1 / 30) emptyOracle false).ret = 0 ∧
    (world_update opsQ shootingWorld (1 / 30) emptyOracle false).world.projectile_list
      = shootingWorld.projectile_list ∧
    (world_update opsQ shootingWorld (1 / 30) emptyOracle false).world.asteroid_list
      = shootingWorld.asteroid_list ∧
    (world_update opsQ shootingWorld (1 / 30) emptyOracle false).world.player.shoot_cooldown
      = 1 / PLAYER_ACTION_SHOOT_RATE ℚ := by
  have h := C4_amended_alloc_failure_aborts_frame opsQ shootingWorld (1 / 30) emptyOracle
    (by rw [shootingWorld_facts.2.1]; decide)
    (by rw [shootingWorld_facts.2.2]; norm_num)
  exact ⟨h.1, h.2.1, h.2.2.1, h.2.2.2.2⟩

/-- C6: after the steering update on a live enemy, the squared magnitude of
the new velocity is at most the squared configured speed — equivalently
(via the square root) the magnitude never exceeds the speed — for every
starting velocity, every player position and every `dt`; and the velocity is
exactly the current velocity plus the steering delta (desired velocity minus
current velocity, magnitude-clamped to the fixed turn limit 1/2), the sum
clamped to the enemy's speed. -/
theorem C6_steering_speed_clamp {K : Type} [LinearOrderedField K] (ops : RealOps K)
    (hs : ∀ x : K, 0 ≤ x → ops.sqrt x * ops.sqrt x = x)
    (hs0 : ∀ x : K, 0 ≤ ops.sqrt x)
    (plr : Player K) (e : Enemy K) (dt : K) (hsp : 0 ≤ e.speed) :
    (enemy_steer ops plr e dt).xvel * (enemy_steer ops plr e dt).xvel
        + (enemy_steer ops plr e dt).yvel * (enemy_steer ops plr e dt).yvel
      ≤ e.speed * e.speed ∧
    vec_mag ops (vec (enemy_steer ops plr e dt).xvel (enemy_steer ops plr e dt).yvel 0 0)
      ≤ e.speed ∧
    (enemy_steer ops plr e dt).xvel
        = (vec_clamp ops (vec_add (vec e.xvel e.yvel 0 0)
            (vec_clamp ops (vec_sub (vec_mulf (vec_norm ops
                (vec_sub (vec plr.x plr.y 0 0) (vec e.x e.y 0 0))) e.speed)
              (vec e.xvel e.yvel 0 0)) (1 / 2))) e.speed).x ∧
    (enemy_steer ops plr e dt).yvel
        = (vec_clamp ops (vec_add (vec e.xvel e.yvel 0 0)
            (vec_clamp ops (vec_sub (vec_mulf (vec_norm ops
                (vec_sub (vec plr.x plr.y 0 0) (vec e.x e.y 0 0))) e.speed)
              (vec e.xvel e.yvel 0 0)) (1 / 2))) e.speed).y := by
  obtain ⟨V, hV⟩ : ∃ V : Vec K,
      vec_clamp ops (vec_add (vec e.xvel e.yvel 0 0)
        (vec_clamp ops (vec_sub (vec_mulf (vec_norm ops
            (vec_sub (vec plr.x plr.y 0 0) (vec e.x e.y 0 0))) e.speed)
          (vec e.xvel e.yvel 0 0)) (1 / 2))) e.speed = V :=
    ⟨_, rfl⟩
  have hb := vec_clamp_mag2_le ops hs
    (vec_add (vec e.xvel e.yvel 0 0)
      (vec_clamp ops (vec_sub (vec_mulf (vec_norm ops
          (vec_sub (vec plr.x plr.y 0 0) (vec e.x e.y 0 0))) e.speed)
        (vec e.xvel e.yvel 0 0)) (1 / 2))) e.speed
  rw [hV] at hb
  unfold vec_mag2 at hb
  have hx : (enemy_steer ops plr e dt).xvel = V.x := congrArg Vec.x hV
  have hy : (enemy_steer ops plr e dt).yvel = V.y := congrArg Vec.y hV
  have hsq : V.x * V.x + V.y * V.y ≤ e.speed * e.speed := by
    nlinarith [mul_self_nonneg V.z, mul_self_nonneg V.w]
  refine ⟨by rw [hx, hy]; exact hsq, ?_, by rw [hx]; exact congrArg Vec.x hV.symm,
    by rw [hy]; exact congrArg Vec.y hV.symm⟩
  rw [hx, hy]
  unfold vec_mag
  have hq0 : 0 ≤ vec_mag2 (vec V.x V.y 0 0) := vec_mag2_nonneg _
  have hqle : vec_mag2 (vec V.x V.y 0 0) ≤ e.speed * e.speed := by
    unfold vec_mag2 vec
    dsimp only
    nlinarith
  have hsqq := hs (vec_mag2 (vec V.x V.y 0 0)) hq0
  have hsq0 := hs0 (vec_mag2 (vec V.x V.y 0 0))
  by_cases hle : ops.sqrt (vec_mag2 (vec V.x V.y 0 0)) ≤ e.speed
  · exact hle
  · exfalso
    have hlt : e.speed < ops.sqrt (vec_mag2 (vec V.x V.y 0 0)) := lt_of_not_le hle
    nlinarith

/-- C6, witness: over the reals with the genuine square root, a concrete
live enemy with speed 50 and starting velocity (3, 4) obeys the clamp after
steering towards the player for one second. -/
theorem C6_witness :
    (enemy_steer ⟨Real.sqrt, fun _ _ => 0, Real.pi⟩
        ⟨100, 0, 350, 0, 200, 0, 0, 350⟩ ⟨0, 0, 3, 4, 0, 30, 50, 0, 0, 0⟩ 1).xvel
      * (enemy_steer ⟨Real.sqrt, fun _ _ => 0, Real.pi⟩
        ⟨100, 0, 350, 0, 200, 0, 0, 350⟩ ⟨0, 0, 3, 4, 0, 30, 50, 0, 0, 0⟩ 1).xvel
      + (enemy_steer ⟨Real.sqrt, fun _ _ => 0, Real.pi⟩
        ⟨100, 0, 350, 0, 200, 0, 0, 350⟩ ⟨0, 0, 3, 4, 0, 30, 50, 0, 0, 0⟩ 1).yvel
      * (enemy_steer ⟨Real.sqrt, fun _ _ => 0, Real.pi⟩
        ⟨100, 0, 350, 0, 200, 0, 0, 350⟩ ⟨0, 0, 3, 4, 0, 30, 50, 0, 0, 0⟩ 1).yvel
      ≤ 50 * 50 ∧
    vec_mag ⟨Real.sqrt, fun _ _ => 0, Real.pi⟩
      (vec (enemy_steer ⟨Real.sqrt, fun _ _ => 0, Real.pi⟩
          ⟨100, 0, 350, 0, 200, 0, 0, 350⟩ ⟨0, 0, 3, 4, 0, 30, 50, 0, 0, 0⟩ 1).xvel
        (enemy_steer ⟨Real.sqrt, fun _ _ => 0, Real.pi⟩
          ⟨100, 0, 350, 0, 200, 0, 0, 350⟩ ⟨0, 0, 3, 4, 0, 30, 50, 0, 0, 0⟩ 1).yvel
        0 0) ≤ 50 := by
  have h := @C6_steering_speed_clamp ℝ _ ⟨Real.sqrt, fun _ _ => 0, Real.pi⟩
    (fun x hx => Real.mul_self_sqrt hx) (fun x => Real.sqrt_nonneg x)
    ⟨100, 0, 350, 0, 200, 0, 0, 350⟩ ⟨0, 0, 3, 4, 0, 30, 50, 0, 0, 0⟩ 1
    (by norm_num)
  exact ⟨h.1, h.2.1⟩

/-- Per-asteroid kinematics (game.c:311-317): position integrates by
velocity, rotation integrates by rotation speed, and a single full turn is
subtracted when the new rotation reaches `2π`, which keeps the rotation in
`[0, 2π)` exactly when the previous rotation was in `[0, 2π)` and the
per-frame increment is in `[0, 2π)`. -/
theorem asteroid_update_props {K : Type} [LinearOrderedField K] (ops : RealOps K)
    (a : Asteroid K) (dt : K) :
    (asteroid_update ops a dt).x = a.x + a.xvel * dt ∧
    (asteroid_update ops a dt).y = a.y + a.yvel * dt ∧
    (0 ≤ a.rot → a.rot < ops.pi * 2 → 0 ≤ a.rot_speed * dt →
      a.rot_speed * dt < ops.pi * 2 →
      0 ≤ (asteroid_update ops a dt).rot ∧ (asteroid_update ops a dt).rot < ops.pi * 2) := by
  refine ⟨rfl, rfl, ?_⟩
  intro h1 h2 h3 h4
  unfold asteroid_update
  dsimp only
  split
  case isTrue h => constructor <;> linarith
  case isFalse h =>
    have h' := lt_of_not_le (fun hc => h hc)
    constructor <;> linarith

theorem get_of_eq {α : Type} {l l' : List α} (h : l = l') (j : Nat)
    (hj : j < l.length) (hj' : j < l'.length) :
    l.get ⟨j, hj⟩ = l'.get ⟨j, hj'⟩ := by
  subst h
  rfl

/-- C9, amended: on every `world_update` call that completes its frame (the
projectile allocation, if reached, succeeds), each asteroid's position is
integrated by velocity·dt unconditionally and its rotation by
rotation_speed·dt with a single full-turn wrap; the rotation stays within
`[0, 2π)` provided the previous rotation was in `[0, 2π)` and the per-frame
rotation increment is in `[0, 2π)` — not for every `dt` and rotation speed. -/
theorem C9_amended_asteroid_kinematics {K : Type} [LinearOrderedField K] [FloorRing K]
    (ops : RealOps K) (w : World K) (dt : K)
    (oracle : Nat → List (BodyRef × BodyRef)) (j : Nat)
    (hj : j < w.asteroid_list.length) :
    ∃ hj' : j < (world_update ops w dt oracle true).world.asteroid_list.length,
      ((world_update ops w dt oracle true).world.asteroid_list.get ⟨j, hj'⟩).x
          = (w.asteroid_list.get ⟨j, hj⟩).x + (w.asteroid_list.get ⟨j, hj⟩).xvel * dt ∧
      ((world_update ops w dt oracle true).world.asteroid_list.get ⟨j, hj'⟩).y
          = (w.asteroid_list.get ⟨j, hj⟩).y + (w.asteroid_list.get ⟨j, hj⟩).yvel * dt ∧
      (0 ≤ (w.asteroid_list.get ⟨j, hj⟩).rot →
        (w.asteroid_list.get ⟨j, hj⟩).rot < ops.pi * 2 →
        0 ≤ (w.asteroid_list.get ⟨j, hj⟩).rot_speed * dt →
        (w.asteroid_list.get ⟨j, hj⟩).rot_speed * dt < ops.pi * 2 →
        0 ≤ ((world_update ops w dt oracle true).world.asteroid_list.get ⟨j, hj'⟩).rot ∧
        ((world_update ops w dt oracle true).world.asteroid_list.get ⟨j, hj'⟩).rot
          < ops.pi * 2) := by
  have hext := physics_loop_ext w (w.sim_acc + dt) oracle 0
  obtain ⟨hplayer, hast, hprj, hens, hbodies, hmasks, hacc⟩ := queue_ext_same hext
  obtain ⟨f1, f2, f3, f4, f5, f6, f7, f8, f9, f10, f11⟩ :=
    events_fold_fields
      ({ (physics_loop w (w.sim_acc + dt) oracle 0).world with
        sim_acc := (physics_loop w (w.sim_acc + dt) oracle 0).acc } : World K)
      ({ (physics_loop w (w.sim_acc + dt) oracle 0).world with
        sim_acc := (physics_loop w (w.sim_acc + dt) oracle 0).acc } : World K).event_queue
  obtain ⟨m1, m2, m3, m4, m5, m6, m7, m8, m9⟩ :=
    player_move_phase_fields (events_phase
      { (physics_loop w (w.sim_acc + dt) oracle 0).world with
        sim_acc := (physics_loop w (w.sim_acc + dt) oracle 0).acc }).1 dt
  obtain ⟨s1, s2, s3, s4, s5, s6, s7, s8⟩ :=
    shoot_phase_fields (player_move_phase (events_phase
      { (physics_loop w (w.sim_acc + dt) oracle 0).world with
        sim_acc := (physics_loop w (w.sim_acc + dt) oracle 0).acc }).1 dt) dt true
  have hEN : (enemies_phase ops
      (shoot_phase (player_move_phase (events_phase
        { (physics_loop w (w.sim_acc + dt) oracle 0).world with
          sim_acc := (physics_loop w (w.sim_acc + dt) oracle 0).acc }).1 dt) dt true).1
      dt).asteroid_list = w.asteroid_list := by
    refine (enemies_phase_fields ops _ dt).2.2.1.trans (s3.trans (m3.trans ?_))
    show (List.foldl process_event _ _).asteroid_list = _
    rw [f3]
    exact hast
  have hA : (world_update ops w dt oracle true).world.asteroid_list
      = w.asteroid_list.map fun a => asteroid_update ops a dt := by
    rw [world_update_cases]
    rw [if_neg (by rw [shoot_phase_true]; simp)]
    show ((enemies_phase ops _ dt).asteroid_list.map fun a => asteroid_update ops a dt)
      = _
    rw [hEN]
  have hj' : j < (world_update ops w dt oracle true).world.asteroid_list.length := by
    rw [hA]
    simpa using hj
  have hget : (world_update ops w dt oracle true).world.asteroid_list.get ⟨j, hj'⟩
      = asteroid_update ops (w.asteroid_list.get ⟨j, hj⟩) dt := by
    rw [get_of_eq hA j hj' (by simpa using hj)]
    exact get_map_eq _ _ j hj _
  obtain ⟨p1, p2, p3⟩ := asteroid_update_props ops (w.asteroid_list.get ⟨j, hj⟩) dt
  exact ⟨hj', by rw [hget]; exact p1, by rw [hget]; exact p2,
    fun h1 h2 h3 h4 => by rw [hget]; exact p3 h1 h2 h3 h4⟩

/-- C9, counterexample: an asteroid spinning backwards (rotation speed -60)
leaves `[0, 2π)` after one update — its rotation becomes -2 — so the claim
"rotation always lies within [0, 2π) for every rotation speed" is false of
the code, which only ever subtracts a single full turn and never wraps from
below. -/
theorem C9_counterexample_negative_rotation :
    (world_update opsQ backspinWorld (1 / 30) emptyOracle true).world.asteroid_list.map
        Asteroid.rot = [-2] ∧
    ¬ (0 ≤ (-2 : ℚ)) := by
  have h01 : (0 &&& 1 : Nat) = 0 := by decide
  have h02 : (0 &&& 2 : Nat) = 0 := by decide
  have h04 : (0 &&& 4 : Nat) = 0 := by decide
  constructor
  · rw [world_update_cases, physics_eval_idle backspinWorld
      (by norm_num [backspinWorld, world_add_asteroid, world_new_state])]
    norm_num [events_phase, process_event, player_move_phase, shoot_phase,
      enemies_phase, asteroids_phase, projectiles_phase, asteroid_update,
      opsQ, backspinWorld, world_add_asteroid, world_new_state, ACTION_SHOOT,
      ACTION_MOVE_LEFT, ACTION_MOVE_RIGHT, h01, h02, h04]
  · norm_num

/-- C9, witness for the amended theorem: a concrete asteroid with rotation 1
and increment 2 integrates its position by velocity·dt and keeps its
rotation inside `[0, 2π)`. -/
theorem C9_witness :
    ∃ hj' : 0 < (world_update opsQ spinWorld (1 / 30) emptyOracle
        true).world.asteroid_list.length,
      ((world_update opsQ spinWorld (1 / 30) emptyOracle
          true).world.asteroid_list.get ⟨0, hj'⟩).x = 5 + 1 * (1 / 30) ∧
      ((world_update opsQ spinWorld (1 / 30) emptyOracle
          true).world.asteroid_list.get ⟨0, hj'⟩).y = 6 + 2 * (1 / 30) ∧
      0 ≤ ((world_update opsQ spinWorld (1 / 30) emptyOracle
          true).world.asteroid_list.get ⟨0, hj'⟩).rot ∧
      ((world_update opsQ spinWorld (1 / 30) emptyOracle
          true).world.asteroid_list.get ⟨0, hj'⟩).rot < opsQ.pi * 2 := by
  have hsl : spinWorld.asteroid_list = [⟨0, 5, 6, 1, 2, 1, 60⟩] := by
    norm_num [spinWorld, world_add_asteroid, world_new_state]
  have h0 : 0 < spinWorld.asteroid_list.length := by
    rw [hsl]
    simp
  obtain ⟨hj', hx, hy, hrot⟩ := C9_amended_asteroid_kinematics opsQ spinWorld (1 / 30)
    emptyOracle 0 h0
  have hget : spinWorld.asteroid_list.get ⟨0, h0⟩ = ⟨0, 5, 6, 1, 2, 1, 60⟩ := by
    simp [hsl]
  obtain ⟨hr0, hr1⟩ := hrot (by rw [hget]; norm_num) (by rw [hget]; norm_num [opsQ])
    (by rw [hget]; norm_num) (by rw [hget]; norm_num [opsQ])
  refine ⟨hj', ?_, ?_, hr0, hr1⟩
  · rw [hx, hget]
  · rw [hy, hget]

end Yass
